import Mathlib

/-!
# MPEG-TS packet parser and PES assembler (`TS_parser_All.cpp`)

A shallow embedding of the transport-stream header parser, the adaptation-field
parser, the PES header parser and the PES assembler, followed by the properties
established about them.

Conventions of the embedding:

* a `const uint8_t*` is the map from offsets to the values stored there, and a
  read through it is reduced modulo 256;
* unsigned fields are natural numbers, reduced modulo `2 ^ w` wherever the C++
  arithmetic is performed in a `w`-bit type; `int8_t m_LastContinuityCounter`
  is an integer wrapped into `[-128, 127]` when stored;
* a method that mutates `this` is a function from the old object to the new one;
* `printf("ContinuityCounter not valid")` is recorded as a flag of the call, and
  `fwrite` to `pFile` appends to the list of bytes written so far;
* `malloc`/`realloc` are assumed to succeed, to return a pointer that is not
  `NULL`, and to keep the stored bytes; a store through
  `m_Buffer + m_DataOffset` is recorded at that offset whether or not the offset
  lies inside the `m_BufferSize` bytes that were allocated;
* `m_Buffer` is `NULL` from the constructor until the first call of
  `xBufferAppend` with `m_Started` set. A store or an `fwrite` of at least one
  byte through it while it is `NULL` sets the flag `nullDeref` of the assembler,
  which is never cleared: the C++ call does not return then, and what the
  embedding says about the result and the members of such a call has no
  counterpart in the program.
-/

namespace TSParser

/-! ## Byte pointers -/

/-- Memory seen through a `const uint8_t*`: the value stored at each offset. -/
abbrev BytePtr := Nat → Nat

/-- The read `*(Input + i)` of a `uint8_t`. -/
def rd (Input : BytePtr) (i : Nat) : Nat := Input i % 256

/-- The pointer `Input + k`. -/
def advance (Input : BytePtr) (k : Nat) : BytePtr := fun i => Input (k + i)

/-- A pointer to the bytes of a list (what lies past the list reads as 0). -/
def ofBytes (l : List Nat) : BytePtr := fun i => l.getD i 0

/-- The store `*(Buffer + i) = v`. -/
def store (Buffer : BytePtr) (i v : Nat) : BytePtr := fun j => if j = i then v else Buffer j

/-- The first `n` bytes behind a pointer. -/
def bytesAt (Input : BytePtr) (n : Nat) : List Nat := (List.range n).map (rd Input)

/-! ## `xTS_PacketHeader` -/

/-- The fields of `class xTS_PacketHeader`. -/
structure xTS_PacketHeader where
  SB : Nat
  E : Nat
  S : Nat
  T : Nat
  PID : Nat
  TSC : Nat
  AFC : Nat
  CC : Nat
deriving DecidableEq, Repr

namespace xTS_PacketHeader

/-- `xTS_PacketHeader::Reset`. -/
def Reset : xTS_PacketHeader :=
  { SB := 0, E := 0, S := 0, T := 0, PID := 0, TSC := 0, AFC := 0, CC := 0 }

/-- The 32-bit word built by the loop at the top of `xTS_PacketHeader::Parse`:
`byte <<= 8; byte = byte | *(Input+i)` for `i = 0..3`, in `uint32_t`. -/
def headerWord (Input : BytePtr) : Nat :=
  (List.range 4).foldl (fun byte i => ((byte <<< 8) % 2 ^ 32) ||| rd Input i) 0

/-- `xTS_PacketHeader::Parse`. Every field is assigned, so the result does not
depend on the previous contents of the object. The fields are `uint8_t`, except
`PID`, which is `uint16_t`. -/
def Parse (Input : BytePtr) : xTS_PacketHeader :=
  let byte := headerWord Input
  { SB  := ((byte &&& 0xff000000) >>> 24) % 256
    E   := ((byte &&& 0x800000)   >>> 23) % 256
    S   := ((byte &&& 0x400000)   >>> 22) % 256
    T   := ((byte &&& 0x200000)   >>> 21) % 256
    PID := ((byte &&& 0x1fff00)   >>>  8) % 65536
    TSC := ((byte &&& 0xc0)       >>>  6) % 256
    AFC := ((byte &&& 0x30)       >>>  4) % 256
    CC  := ((byte &&& 0xf)        >>>  0) % 256 }

/-- `uint8_t getSB()`. -/
def getSB (h : xTS_PacketHeader) : Nat := h.SB % 256
/-- `uint8_t getE()`. -/
def getE (h : xTS_PacketHeader) : Nat := h.E % 256
/-- `uint8_t getS()`. -/
def getS (h : xTS_PacketHeader) : Nat := h.S % 256
/-- `uint8_t getT()`. -/
def getT (h : xTS_PacketHeader) : Nat := h.T % 256
/-- `uint8_t getPID()`: the 16-bit field returned through an 8-bit type. -/
def getPID (h : xTS_PacketHeader) : Nat := h.PID % 256
/-- `uint8_t getTSC()`. -/
def getTSC (h : xTS_PacketHeader) : Nat := h.TSC % 256
/-- `uint8_t getAFC()`. -/
def getAFC (h : xTS_PacketHeader) : Nat := h.AFC % 256
/-- `uint8_t getCC()`. -/
def getCC (h : xTS_PacketHeader) : Nat := h.CC % 256

/-- `hasAdaptationField`: `(AFC == 1) ? false : true`. -/
def hasAdaptationField (h : xTS_PacketHeader) : Bool := if h.AFC = 1 then false else true

/-- `hasPayload`: `(AFC > 1) ? true : false`. -/
def hasPayload (h : xTS_PacketHeader) : Bool := if h.AFC > 1 then true else false

end xTS_PacketHeader

/-! ## `xTS_AdaptationField` -/

/-- The fields of `class xTS_AdaptationField`, under the names of the class
declaration (`Reset` and `Parse` write the PCR and OPCR flags as `PR` and `OR`). -/
structure xTS_AdaptationField where
  AFL : Nat
  DC : Nat
  RA : Nat
  SP : Nat
  PCR : Nat
  OPCR : Nat
  SP2 : Nat
  TP : Nat
  EX : Nat
deriving DecidableEq, Repr

namespace xTS_AdaptationField

/-- `xTS_AdaptationField::Reset`. -/
def Reset : xTS_AdaptationField :=
  { AFL := 0, DC := 0, RA := 0, SP := 0, PCR := 0, OPCR := 0, SP2 := 0, TP := 0, EX := 0 }

/-- `xTS_AdaptationField::Parse`, applied to an object that `Reset` has just
cleared or to any other: the length is read at offset 4, the flags byte at
offset 5, and every flag is assigned from it. `Control` is not used. -/
def Parse (_self : xTS_AdaptationField) (Input : BytePtr) (_Control : Nat) :
    xTS_AdaptationField :=
  let flags := rd Input (5 + 0)
  { AFL  := rd Input 4
    DC   := ((flags &&& 0x80) >>> 7) % 256
    RA   := ((flags &&& 0x40) >>> 6) % 256
    SP   := ((flags &&& 0x20) >>> 5) % 256
    PCR  := ((flags &&& 0x10) >>> 4) % 256
    OPCR := ((flags &&& 0x8)  >>> 3) % 256
    SP2  := ((flags &&& 0x4)  >>> 2) % 256
    TP   := ((flags &&& 0x2)  >>> 1) % 256
    EX   := ((flags &&& 0x1)  >>> 0) % 256 }

/-- `uint32_t getBytes()`. -/
def getBytes (af : xTS_AdaptationField) : Nat := af.AFL % 256

/-- Modelled from the spec: `getNumBytes()`, which `AbsorbPacket` calls and the
class does not declare. The payload offset is "4 (fixed header) plus, if an
adaptation field is present, `1 + adaptation-field-length`", so it is the
adaptation-field length, as `getBytes()` returns it. -/
def getNumBytes (af : xTS_AdaptationField) : Nat := af.getBytes

end xTS_AdaptationField

/-! ## `xPES_PacketHeader` -/

/-- The fields of `class xPES_PacketHeader`. -/
structure xPES_PacketHeader where
  m_PacketStartCodePrefix : Nat
  m_StreamId : Nat
  m_PacketLength : Nat
  PES_header_data_length : Nat
deriving DecidableEq, Repr

namespace xPES_PacketHeader

/-- The stream-ids of `enum eStreamId`, which carry no optional PES header. -/
def eStreamId : List Nat := [0xBC, 0xBE, 0xBF, 0xF0, 0xF1, 0xFF, 0xF2, 0xF8]

/-- `xPES_PacketHeader::Reset`: `PES_header_data_length` is not assigned. -/
def Reset (self : xPES_PacketHeader) : xPES_PacketHeader :=
  { self with m_PacketStartCodePrefix := 0, m_StreamId := 0, m_PacketLength := 0 }

/-- `xPES_PacketHeader::Parse`. The prefix is shifted in as `uint32_t`, the
length as `uint16_t`; `PES_header_data_length = *(Input+8)+6+2+1` is stored in a
`uint8_t`, and only when the stream-id is none of the enumerated ones. -/
def Parse (self : xPES_PacketHeader) (Input : BytePtr) : xPES_PacketHeader :=
  let pscp := (List.range 3).foldl
    (fun p i => ((p <<< 8) % 2 ^ 32) ||| rd Input i) self.m_PacketStartCodePrefix
  let sid := rd Input 3
  let len := (List.range 2).foldl
    (fun l i => ((l <<< 8) % 2 ^ 16) ||| rd Input (4 + i)) self.m_PacketLength
  { m_PacketStartCodePrefix := pscp
    m_StreamId := sid
    m_PacketLength := len
    PES_header_data_length :=
      if sid ≠ 0xBC ∧ sid ≠ 0xBE ∧ sid ≠ 0xBF ∧ sid ≠ 0xF0 ∧ sid ≠ 0xF1 ∧ sid ≠ 0xFF ∧
          sid ≠ 0xF2 ∧ sid ≠ 0xF8 then
        (rd Input 8 + 6 + 2 + 1) % 256
      else self.PES_header_data_length }

/-- `uint8_t getStreamId()`. -/
def getStreamId (self : xPES_PacketHeader) : Nat := self.m_StreamId % 256
/-- `uint16_t getPacketLength()`. -/
def getPacketLength (self : xPES_PacketHeader) : Nat := self.m_PacketLength % 65536
/-- `uint8_t get_PES_header_data_length()`. -/
def get_PES_header_data_length (self : xPES_PacketHeader) : Nat :=
  self.PES_header_data_length % 256

end xPES_PacketHeader

/-! ## `xPES_Assembler` -/

/-- `enum class xPES_Assembler::eResult`. -/
inductive eResult where
  | UnexpectedPID
  | StreamPackedLost
  | AssemblingStarted
  | AssemblingContinue
  | AssemblingFinished
deriving DecidableEq, Repr

/-- The members of `class xPES_Assembler`. The pointer `m_Buffer` is the pair of
`m_BufferIsNull`, which says whether it is `NULL`, and `m_Buffer`, the memory
behind it when it is not. `pFile` is the bytes written to the output file so
far. `nullDeref` is not a member: it records that a store or a read of at least
one byte went through `m_Buffer` while it was `NULL`. -/
structure xPES_Assembler where
  m_PID : Int
  m_Buffer : BytePtr
  m_BufferSize : Nat
  m_DataOffset : Nat
  m_LastContinuityCounter : Int
  m_Started : Bool
  m_PESH : xPES_PacketHeader
  pFile : List Nat
  m_BufferIsNull : Bool
  nullDeref : Bool

/-- The conversion of an `int` to `int8_t`. -/
def toInt8 (x : Int) : Int := (x + 128) % 256 - 128

/-- What one call of `AbsorbPacket` produces: the returned `eResult`, whether
`"ContinuityCounter not valid"` was printed, and the assembler afterwards. -/
structure Absorbed where
  res : eResult
  ccNotValid : Bool
  self : xPES_Assembler

namespace xPES_Assembler

/-- The constructor. `m_Buffer = NULL`: no memory stands behind the pointer
(the map given for it is never read or written without setting `nullDeref`).
`m_PESH` is only `Reset`, which leaves its `PES_header_data_length` as it was,
so that member is taken as an argument. -/
def construct (m_PESH : xPES_PacketHeader) : xPES_Assembler :=
  { m_PID := 0
    m_Buffer := fun _ => 0
    m_BufferSize := 0
    m_DataOffset := 0
    m_LastContinuityCounter := 0
    m_Started := false
    m_PESH := m_PESH.Reset
    pFile := []
    m_BufferIsNull := true
    nullDeref := false }

/-- `xPES_Assembler::Init`: `fopen(..., "wb")` leaves an empty file. -/
def Init (self : xPES_Assembler) (PID : Int) : xPES_Assembler :=
  { self with m_PID := PID, m_LastContinuityCounter := 15, pFile := [] }

/-- `xPES_Assembler::xBufferReset`. -/
def xBufferReset (self : xPES_Assembler) : xPES_Assembler :=
  { self with m_BufferSize := 0, m_DataOffset := 0 }

/-- The copy loop of `xBufferAppend`, `for(i; i<Size; i++)`, with `n = Size - i`
iterations left: store `*(Data+i)` at `m_Buffer + m_DataOffset`, then
`m_DataOffset++` in `uint32_t`. A store while `m_Buffer` is `NULL` sets
`nullDeref`. -/
def copyLoop (Data : BytePtr) : Nat → Nat → xPES_Assembler → xPES_Assembler
  | _, 0, self => self
  | i, n + 1, self =>
    copyLoop Data (i + 1) n
      { self with
        m_Buffer := store self.m_Buffer self.m_DataOffset (rd Data i)
        m_DataOffset := (self.m_DataOffset + 1) % 2 ^ 32
        nullDeref := self.nullDeref || self.m_BufferIsNull }

/-- `xPES_Assembler::xBufferAppend`. With `m_Started` set the buffer is
allocated (`malloc` when `m_Buffer` is `NULL`, `realloc` otherwise), so the
pointer is not `NULL` afterwards; without it nothing is allocated. The final
`fwrite` reads `m_BufferSize` bytes through `m_Buffer`. -/
def xBufferAppend (self : xPES_Assembler) (Data : BytePtr) (Size : Nat) : xPES_Assembler :=
  let s1 :=
    if self.m_Started = true then
      let r := self.xBufferReset
      { r with
        m_BufferSize :=
          (((r.m_PESH.getPacketLength : Int) -
            ((r.m_PESH.get_PES_header_data_length : Int) - 6)) % 2 ^ 32).toNat
        m_BufferIsNull := false }
    else self
  let i := if s1.m_Started then s1.m_PESH.get_PES_header_data_length else 0
  let s2 := copyLoop Data i (Size - i) s1
  if s2.m_DataOffset = s2.m_BufferSize then
    { s2 with
      pFile := s2.pFile ++ bytesAt s2.m_Buffer s2.m_BufferSize
      nullDeref := s2.nullDeref || (s2.m_BufferIsNull && decide (0 < s2.m_BufferSize)) }
  else s2

/-- The `uint8_t offset` computed by `AbsorbPacket`: 4, plus 1 and
`getNumBytes()` when `hasAdaptationField()`. -/
def payloadOffset (PacketHeader : xTS_PacketHeader) (AdaptationField : xTS_AdaptationField) :
    Nat :=
  if PacketHeader.hasAdaptationField then
    ((4 + 1) % 256 + AdaptationField.getNumBytes) % 256
  else 4

/-- The `uint8_t length` computed by `AbsorbPacket`: `188 - offset` in 8 bits. -/
def payloadLength (PacketHeader : xTS_PacketHeader) (AdaptationField : xTS_AdaptationField) :
    Nat :=
  (188 + 256 - payloadOffset PacketHeader AdaptationField) % 256

/-- `xPES_Assembler::AbsorbPacket`. -/
def AbsorbPacket (self : xPES_Assembler) (TransportStreamPacket : BytePtr)
    (PacketHeader : xTS_PacketHeader) (AdaptationField : xTS_AdaptationField) : Absorbed :=
  let s1 := { self with m_Started := PacketHeader.getS != 0 }
  let offset := payloadOffset PacketHeader AdaptationField
  let length := payloadLength PacketHeader AdaptationField
  let cc : Int := PacketHeader.getCC
  let notValid := cc != Int.tmod (s1.m_LastContinuityCounter + 1) 16
  let s2 := { s1 with m_LastContinuityCounter := toInt8 cc }
  let s3 :=
    if s2.m_Started then
      { s2 with m_PESH := s2.m_PESH.Reset.Parse (advance TransportStreamPacket offset) }
    else s2
  let res :=
    if s2.m_Started then eResult.AssemblingStarted
    else if (s2.m_DataOffset + length) % 2 ^ 32 = s2.m_BufferSize then
      eResult.AssemblingFinished
    else eResult.AssemblingContinue
  { res := res
    ccNotValid := notValid
    self := s3.xBufferAppend (advance TransportStreamPacket offset) length }

end xPES_Assembler

/-! ## The driver loop of `main`, restricted to the assembler -/

/-- A transport-stream packet together with the header and adaptation field
objects that are handed to `AbsorbPacket` with it. -/
structure Packet where
  bytes : BytePtr
  header : xTS_PacketHeader
  af : xTS_AdaptationField

/-- The packet `main` builds from a 188-byte buffer: the header is parsed from
it, and the adaptation field is parsed (after `Reset`) when the header has one
and otherwise left as it was for the packet before (`prev`). -/
def Packet.ofBytes (prev : xTS_AdaptationField) (buf : BytePtr) : Packet :=
  let h := xTS_PacketHeader.Parse buf
  { bytes := buf
    header := h
    af := if h.hasAdaptationField then xTS_AdaptationField.Reset.Parse buf h.getAFC else prev }

/-- One call of `AbsorbPacket` on a packet. -/
def absorb (a : xPES_Assembler) (p : Packet) : Absorbed :=
  a.AbsorbPacket p.bytes p.header p.af

/-- The assembler after absorbing the packets of a list in order. -/
def absorbAll (a : xPES_Assembler) : List Packet → xPES_Assembler
  | [] => a
  | p :: ps => absorbAll (absorb a p).self ps

/-- The results returned for the packets of a list absorbed in order. -/
def results (a : xPES_Assembler) : List Packet → List eResult
  | [] => []
  | p :: ps => (absorb a p).res :: results (absorb a p).self ps

/-- The continuity flags printed for the packets of a list absorbed in order. -/
def ccFlags (a : xPES_Assembler) : List Packet → List Bool
  | [] => []
  | p :: ps => (absorb a p).ccNotValid :: ccFlags (absorb a p).self ps

/-- The pointer `TransportStreamPacket + offset` that `AbsorbPacket` hands to
`xPES_PacketHeader::Parse` and to `xBufferAppend`. -/
def payloadPtr (p : Packet) : BytePtr :=
  advance p.bytes (xPES_Assembler.payloadOffset p.header p.af)

/-- The bytes `AbsorbPacket` hands to `xBufferAppend` for a packet: `length`
bytes from `TransportStreamPacket + offset`. -/
def payloadSlice (p : Packet) : List Nat :=
  bytesAt (payloadPtr p) (xPES_Assembler.payloadLength p.header p.af)

/-! ## Definitions used to state the properties -/

/-- Re-encoding of the eight header fields, as the layout comment of the source
draws them: SB (8 bits), E, S, T (1 bit each), PID (13), TSC (2), AFC (2) and
CC (4), most significant first, cut into 4 bytes. -/
def xTS_PacketHeader.pack (h : xTS_PacketHeader) : List Nat :=
  let w := (((((((h.SB <<< 1 ||| h.E) <<< 1 ||| h.S) <<< 1 ||| h.T) <<< 13 ||| h.PID) <<< 2
    ||| h.TSC) <<< 2 ||| h.AFC) <<< 4 ||| h.CC)
  [(w >>> 24) % 256, (w >>> 16) % 256, (w >>> 8) % 256, w % 256]

/-- The assembler as `AbsorbPacket` hands it to `xBufferAppend`: `m_Started`
and `m_LastContinuityCounter` are assigned, and `m_PESH` is reset and parsed
when the packet starts a unit. -/
def prepared (a : xPES_Assembler) (p : Packet) : xPES_Assembler :=
  { a with
    m_Started := p.header.getS != 0
    m_LastContinuityCounter := toInt8 (p.header.getCC : Int)
    m_PESH := if p.header.getS != 0 then a.m_PESH.Reset.Parse (payloadPtr p) else a.m_PESH }

/-- The target size `xBufferAppend` assigns when `m_Started` is set:
`getPacketLength() - (get_PES_header_data_length() - 6)`, as `uint32_t`. -/
def targetSize (h : xPES_PacketHeader) : Nat :=
  (((h.getPacketLength : Int) - ((h.get_PES_header_data_length : Int) - 6)) % 2 ^ 32).toNat

/-- The assembler as `xBufferAppend` enters its copy loop. -/
def loopEntry (s : xPES_Assembler) : xPES_Assembler :=
  if s.m_Started = true then
    { s with m_BufferSize := targetSize s.m_PESH, m_DataOffset := 0, m_BufferIsNull := false }
  else s

/-- The index at which the copy loop of `xBufferAppend` starts. -/
def loopStart (s : xPES_Assembler) : Nat :=
  if s.m_Started = true then s.m_PESH.get_PES_header_data_length else 0

/-- The last statement of `xBufferAppend`: the buffer is written to the file
when the write offset equals the target size. -/
def flushed (s : xPES_Assembler) : xPES_Assembler :=
  if s.m_DataOffset = s.m_BufferSize then
    { s with
      pFile := s.pFile ++ bytesAt s.m_Buffer s.m_BufferSize
      nullDeref := s.nullDeref || (s.m_BufferIsNull && decide (0 < s.m_BufferSize)) }
  else s

/-- The stream-id byte of the PES header at the start of the payload. -/
def pesStreamId (p : Packet) : Nat := rd (payloadPtr p) 3

/-- The 16-bit PES-packet-length field, bytes 4 and 5 of the payload. -/
def pesPacketLength (p : Packet) : Nat := rd (payloadPtr p) 4 * 256 + rd (payloadPtr p) 5

/-- The PES-header-data-length byte, byte 8 of the payload. -/
def pesHeaderDataLength (p : Packet) : Nat := rd (payloadPtr p) 8

/-- The bytes a call of `AbsorbPacket` appends to the output file. -/
def delivered (a : xPES_Assembler) (p : Packet) : List Nat :=
  (absorb a p).self.pFile.drop a.pFile.length

/-- The events of the specification (section 4.4 and section 7). -/
inductive AssemblyEvent where
  | Started
  | Continue
  | Finished
  | Truncated
  | Overflow
  | Discontinuity
  | UnexpectedPayload
  | UnboundedLengthUnsupported
deriving DecidableEq, Repr

/-- What a call of `AbsorbPacket` signals, in the vocabulary of the
specification: `Discontinuity` when the continuity warning is printed, then the
event the returned `eResult` stands for. -/
def emitted (r : Absorbed) : List AssemblyEvent :=
  (if r.ccNotValid then [AssemblyEvent.Discontinuity] else []) ++
    match r.res with
    | eResult.AssemblingStarted => [AssemblyEvent.Started]
    | eResult.AssemblingContinue => [AssemblyEvent.Continue]
    | eResult.AssemblingFinished => [AssemblyEvent.Finished]
    | eResult.UnexpectedPID => []
    | eResult.StreamPackedLost => [AssemblyEvent.Discontinuity]

/-! ## Concrete packets -/

/-- The header bytes `47 41 00 10`. -/
def hdrPid100 : BytePtr := ofBytes [0x47, 0x41, 0x00, 0x10]

/-- The header bytes `47 00 88 00`: PID 136 with adaptation-field-control 00. -/
def hdrAfc0 : BytePtr := ofBytes [0x47, 0x00, 0x88, 0x00]

/-- The header bytes `47 00 88 20`: PID 136 with adaptation-field-control 10. -/
def hdrAfc2 : BytePtr := ofBytes [0x47, 0x00, 0x88, 0x20]

/-- A 188-byte packet of PID 136 with adaptation-field-control 11, an adaptation
field of length 0, and a payload that starts with the byte `FF` at offset 5. -/
def pktAfl0 : BytePtr := ofBytes ([0x47, 0x00, 0x88, 0x30, 0x00, 0xFF] ++ List.replicate 182 0x00)

/-- A 188-byte packet of PID 136 whose adaptation field is stuffing that leaves
room for exactly `payload` (at most 182 bytes): `S` is the payload-unit-start
indicator and `cc` the continuity counter. -/
def stuffed (S cc : Nat) (payload : List Nat) : BytePtr :=
  ofBytes ([0x47, S * 0x40, 0x88, 0x30 + cc, 183 - payload.length, 0x00] ++
    List.replicate (182 - payload.length) 0xFF ++ payload)

/-- The first 9 bytes of a PES header of stream-id `C0` with PES-packet-length
`L` and PES-header-data-length `H`. -/
def pesHeader (L H : Nat) : List Nat := [0x00, 0x00, 0x01, 0xC0, L / 256, L % 256, 0x80, 0x00, H]

/-- The packet `main` hands to the assembler for a buffer, when no adaptation
field was parsed before. -/
def mkPacket (buf : BytePtr) : Packet := Packet.ofBytes xTS_AdaptationField.Reset buf

/-- A constructed assembler after `Init(136)`, the member `m_PESH` having
started as zeros. -/
def fresh : xPES_Assembler := (xPES_Assembler.construct ⟨0, 0, 0, 0⟩).Init 136

/-- A start packet of stream-id `C0` with PES-packet-length 9 and
PES-header-data-length 0, carrying the first 3 of the 6 bytes of the unit. -/
def pktStart9 : Packet := mkPacket (stuffed 1 0 (pesHeader 9 0 ++ [0xA1, 0xA2, 0xA3]))

/-- A continuation packet carrying 3 bytes. -/
def pktCont3 : Packet := mkPacket (stuffed 0 1 [0xC1, 0xC2, 0xC3])

/-- A start packet of stream-id `C0` with PES-packet-length 253 and
PES-header-data-length 247; its payload slice is the 9 fixed header bytes and
the first 3 bytes of the optional header. -/
def pktLongHeader : Packet := mkPacket (stuffed 1 0 (pesHeader 253 247 ++ [0xFF, 0xFF, 0xFF]))

/-- A start packet of stream-id `C0` with PES-packet-length 0 and
PES-header-data-length 0. -/
def pktLength0 : Packet := mkPacket (stuffed 1 0 (pesHeader 0 0 ++ [0xA1, 0xA2, 0xA3]))

/-- A start packet of stream-id `C0` with PES-packet-length 5 and
PES-header-data-length 0, so a unit of 2 bytes, carrying 4 bytes after the PES
header. -/
def pktOverlong : Packet := mkPacket (stuffed 1 0 (pesHeader 5 0 ++ [0xA1, 0xA2, 0xA3, 0xA4]))

/-- A packet of PID 136 with continuity counter `cc`, no payload-unit start and
3 payload bytes. -/
def pktCC (cc : Nat) : Packet := mkPacket (stuffed 0 cc [0xC1, 0xC2, 0xC3])

/-- A start packet of stream-id `C0` with PES-packet-length 15 and
PES-header-data-length 0, carrying the first 3 of the 12 bytes of the unit. -/
def pktStart15 : Packet := mkPacket (stuffed 1 0 (pesHeader 15 0 ++ [0xA1, 0xA2, 0xA3]))

/-- A start packet of stream-id `C0` with PES-packet-length 1000 and
PES-header-data-length 0, carrying the first 3 of the 997 bytes of the unit. -/
def pktStart1000 : Packet := mkPacket (stuffed 1 0 (pesHeader 1000 0 ++ [0xA1, 0xA2, 0xA3]))

/-- A packet of PID 136 without payload-unit start whose adaptation field, of
length 183, fills the packet: its payload slice is empty. -/
def pktNoPayload : Packet := mkPacket (stuffed 0 2 [])

/-! ## The loop body of `main` -/

/-- One pass of the `while` loop of `main` over a 188-byte buffer. The header is
reset and parsed, the adaptation field is reset and parsed when the header has
one (otherwise it stays as the pass before left it, `prev`), and the packet is
handed to `AbsorbPacket` when `getPID() == 136`. The result is the `eResult` of
that call, if it was made, the adaptation-field object, and the assembler. -/
def mainStep (prev : xTS_AdaptationField) (asm : xPES_Assembler) (buf : BytePtr) :
    Option eResult × xTS_AdaptationField × xPES_Assembler :=
  let p := Packet.ofBytes prev buf
  if p.header.getPID = 136 then
    (some (absorb asm p).res, p.af, (absorb asm p).self)
  else (none, p.af, asm)

/-- A 188-byte packet like the buffer of `pktStart9`, except that its first
byte is `00` instead of the sync byte `47`. -/
def bufBadSync : BytePtr :=
  store (stuffed 1 0 (pesHeader 9 0 ++ [0xA1, 0xA2, 0xA3])) 0 0x00

/-- A 188-byte packet with header bytes `47 01 88 10`: PID `0x188 = 392`, no
adaptation field, continuity counter 0, and a payload of 184 zero bytes. -/
def bufPid392 : BytePtr := ofBytes ([0x47, 0x01, 0x88, 0x10] ++ List.replicate 184 0x00)

/-- A packet of PID 136 whose adaptation-field-length byte is `afl`, with no
payload-unit start and adaptation-field-control 11; the remaining bytes are
stuffing. -/
def bufAfl (afl : Nat) : BytePtr :=
  ofBytes ([0x47, 0x00, 0x88, 0x30, afl, 0x00] ++ List.replicate 182 0xFF)

/-- A start packet of stream-id `C0` with PES-packet-length 11 and
PES-header-data-length 2, carrying the first 3 of the 6 bytes of the unit. -/
def pktStartH2 : Packet :=
  mkPacket (stuffed 1 0 (pesHeader 11 2 ++ [0xEE, 0xEE] ++ [0xA1, 0xA2, 0xA3]))

/-- A start packet of stream-id `BE` (padding stream, no optional header) with
PES-packet-length 6: the 6 fixed header bytes and the 6 bytes that follow. -/
def pktPadding : Packet :=
  mkPacket (stuffed 1 1 ([0x00, 0x00, 0x01, 0xBE, 0x00, 0x06] ++
    [0xB1, 0xB2, 0xB3, 0xB4, 0xB5, 0xB6]))

/-- A packet of PID 136 with adaptation-field-control 11, a one-byte adaptation
field carrying the flags byte `flags`, and no payload-unit start. -/
def bufFlags (flags : Nat) : BytePtr :=
  ofBytes ([0x47, 0x00, 0x88, 0x30, 0x01, flags] ++ List.replicate 182 0x00)

/-! # Properties -/
/-! ## Bit-level lemmas -/

theorem shl_or_eq_add (a b k : Nat) (hb : b < 2 ^ k) : a <<< k ||| b = a * 2 ^ k + b := by
  rw [Nat.shiftLeft_eq, Nat.mul_comm a, Nat.mul_add_lt_is_or hb]

theorem and_mask_shr (w k n : Nat) : (w &&& ((2 ^ n - 1) <<< k)) >>> k = (w / 2 ^ k) % 2 ^ n := by
  rw [← Nat.shiftRight_eq_div_pow]
  apply Nat.eq_of_testBit_eq
  intro i
  simp [Nat.testBit_shiftRight, Nat.testBit_and, Nat.testBit_shiftLeft, Nat.testBit_mod_two_pow,
    Nat.testBit_two_pow_sub_one]
  exact Bool.and_comm _ _

theorem shl8_step (a b : Nat) (ha : a < 2 ^ 24) (hb : b < 2 ^ 8) :
    (a <<< 8) % 2 ^ 32 ||| b = a * 256 + b := by
  have h := shl_or_eq_add a b 8 hb
  rw [Nat.shiftLeft_eq] at h
  rw [Nat.shiftLeft_eq, Nat.mod_eq_of_lt (by omega), h]
  norm_num

theorem headerWord_eq (Input : BytePtr) :
    xTS_PacketHeader.headerWord Input =
      rd Input 0 * 16777216 + rd Input 1 * 65536 + rd Input 2 * 256 + rd Input 3 := by
  have h0 : rd Input 0 < 2 ^ 8 := Nat.mod_lt _ (by norm_num)
  have h1 : rd Input 1 < 2 ^ 8 := Nat.mod_lt _ (by norm_num)
  have h2 : rd Input 2 < 2 ^ 8 := Nat.mod_lt _ (by norm_num)
  have h3 : rd Input 3 < 2 ^ 8 := Nat.mod_lt _ (by norm_num)
  simp only [xTS_PacketHeader.headerWord, List.range, List.range.loop, List.foldl]
  rw [shl8_step 0 _ (by norm_num) h0, shl8_step _ _ (by omega) h1, shl8_step _ _ (by omega) h2,
    shl8_step _ _ (by omega) h3]
  omega

theorem parse_arith (Input : BytePtr) :
    xTS_PacketHeader.Parse Input =
      { SB := rd Input 0
        E := rd Input 1 / 128
        S := rd Input 1 / 64 % 2
        T := rd Input 1 / 32 % 2
        PID := rd Input 1 % 32 * 256 + rd Input 2
        TSC := rd Input 3 / 64
        AFC := rd Input 3 / 16 % 4
        CC := rd Input 3 % 16 } := by
  have h0 : rd Input 0 < 256 := Nat.mod_lt _ (by norm_num)
  have h1 : rd Input 1 < 256 := Nat.mod_lt _ (by norm_num)
  have h2 : rd Input 2 < 256 := Nat.mod_lt _ (by norm_num)
  have h3 : rd Input 3 < 256 := Nat.mod_lt _ (by norm_num)
  have e1 := and_mask_shr (xTS_PacketHeader.headerWord Input) 24 8
  have e2 := and_mask_shr (xTS_PacketHeader.headerWord Input) 23 1
  have e3 := and_mask_shr (xTS_PacketHeader.headerWord Input) 22 1
  have e4 := and_mask_shr (xTS_PacketHeader.headerWord Input) 21 1
  have e5 := and_mask_shr (xTS_PacketHeader.headerWord Input) 8 13
  have e6 := and_mask_shr (xTS_PacketHeader.headerWord Input) 6 2
  have e7 := and_mask_shr (xTS_PacketHeader.headerWord Input) 4 2
  have e8 := and_mask_shr (xTS_PacketHeader.headerWord Input) 0 4
  norm_num [Nat.shiftLeft_eq] at e1 e2 e3 e4 e5 e6 e7 e8
  simp only [xTS_PacketHeader.Parse]
  rw [e1, e2, e3, e4, e5, e6, e7, e8, headerWord_eq]
  congr 1 <;> omega

theorem rd_lt (Input : BytePtr) (i : Nat) : rd Input i < 256 := Nat.mod_lt _ (by norm_num)

theorem pack_parse (Input : BytePtr) :
    (xTS_PacketHeader.Parse Input).pack = bytesAt Input 4 := by
  have h0 := rd_lt Input 0
  have h1 := rd_lt Input 1
  have h2 := rd_lt Input 2
  have h3 := rd_lt Input 3
  rw [parse_arith]
  simp only [xTS_PacketHeader.pack, bytesAt, List.range, List.range.loop, List.map]
  rw [shl_or_eq_add _ _ 1 (by omega), shl_or_eq_add _ _ 1 (by omega),
    shl_or_eq_add _ _ 1 (by omega), shl_or_eq_add _ _ 13 (by omega),
    shl_or_eq_add _ _ 2 (by omega), shl_or_eq_add _ _ 2 (by omega),
    shl_or_eq_add _ _ 4 (by omega)]
  simp only [Nat.shiftRight_eq_div_pow]
  norm_num
  refine ⟨?_, ?_, ?_, ?_⟩ <;> omega

/-- C3. For every 4 input bytes `b0 b1 b2 b3`, `xTS_PacketHeader::Parse` stores
`SB = b0`, `E`, `S`, `T` = bits 7, 6, 5 of `b1`, `PID = ((b1 & 0x1F) << 8) | b2`,
`TSC = b3 >> 6`, `AFC = (b3 >> 4) & 3` and `CC = b3 & 0xF`; hence `E`, `S`, `T`
are 0 or 1, `PID ≤ 8191`, `TSC ≤ 3`, `AFC ≤ 3` and `CC ≤ 15`. -/
theorem parse_header_fields (Input : BytePtr) :
    (xTS_PacketHeader.Parse Input).SB = rd Input 0 ∧
    (xTS_PacketHeader.Parse Input).E = (rd Input 1 >>> 7) &&& 1 ∧
    (xTS_PacketHeader.Parse Input).S = (rd Input 1 >>> 6) &&& 1 ∧
    (xTS_PacketHeader.Parse Input).T = (rd Input 1 >>> 5) &&& 1 ∧
    (xTS_PacketHeader.Parse Input).PID = ((rd Input 1 &&& 0x1F) <<< 8) ||| rd Input 2 ∧
    (xTS_PacketHeader.Parse Input).TSC = rd Input 3 >>> 6 ∧
    (xTS_PacketHeader.Parse Input).AFC = (rd Input 3 >>> 4) &&& 3 ∧
    (xTS_PacketHeader.Parse Input).CC = rd Input 3 &&& 0xF ∧
    ((xTS_PacketHeader.Parse Input).E = 0 ∨ (xTS_PacketHeader.Parse Input).E = 1) ∧
    ((xTS_PacketHeader.Parse Input).S = 0 ∨ (xTS_PacketHeader.Parse Input).S = 1) ∧
    ((xTS_PacketHeader.Parse Input).T = 0 ∨ (xTS_PacketHeader.Parse Input).T = 1) ∧
    (xTS_PacketHeader.Parse Input).PID ≤ 8191 ∧
    (xTS_PacketHeader.Parse Input).TSC ≤ 3 ∧
    (xTS_PacketHeader.Parse Input).AFC ≤ 3 ∧
    (xTS_PacketHeader.Parse Input).CC ≤ 15 := by
  have h0 := rd_lt Input 0
  have h1 := rd_lt Input 1
  have h2 := rd_lt Input 2
  have h3 := rd_lt Input 3
  have m1 : ∀ x : Nat, x &&& 1 = x % 2 := fun x => Nat.and_pow_two_sub_one_eq_mod x 1
  have m3 : ∀ x : Nat, x &&& 3 = x % 4 := fun x => Nat.and_pow_two_sub_one_eq_mod x 2
  have m15 : ∀ x : Nat, x &&& 0xF = x % 16 := fun x => Nat.and_pow_two_sub_one_eq_mod x 4
  have m31 : ∀ x : Nat, x &&& 0x1F = x % 32 := fun x => Nat.and_pow_two_sub_one_eq_mod x 5
  rw [parse_arith]
  simp only [m1, m3, m15, m31, Nat.shiftRight_eq_div_pow]
  rw [shl_or_eq_add _ _ 8 (by omega)]
  norm_num
  omega

/-- C4. Round trip: packing the eight fields produced by
`xTS_PacketHeader::Parse` into 8+1+1+1+13+2+2+4 bits gives back the 4 header
bytes, and two inputs with the same parsed header have the same 4 bytes. -/
theorem parse_pack_roundtrip :
    (∀ Input : BytePtr, (xTS_PacketHeader.Parse Input).pack = bytesAt Input 4) ∧
    (∀ I J : BytePtr, xTS_PacketHeader.Parse I = xTS_PacketHeader.Parse J →
      bytesAt I 4 = bytesAt J 4) := by
  refine ⟨pack_parse, ?_⟩
  intro I J h
  rw [← pack_parse I, ← pack_parse J, h]

/-! ## Concrete headers and the adaptation field (C5, C6, C8) -/

/-- C5, as stated, fails: the header bytes `47 41 00 10` do not parse to
`PID = 0x100`, `S = 0`, `AFC = 1`, `CC = 0`, because bit 6 of `0x41` is set. -/
theorem parse_47410010_not_S0 :
    ¬ ((xTS_PacketHeader.Parse hdrPid100).PID = 0x100 ∧
       (xTS_PacketHeader.Parse hdrPid100).S = 0 ∧
       (xTS_PacketHeader.Parse hdrPid100).AFC = 1 ∧
       (xTS_PacketHeader.Parse hdrPid100).CC = 0) := by
  decide

/-- C5, amended. Parsing the header bytes `47 41 00 10` yields `PID = 0x100`,
`S = 1`, `AFC = 1` (payload only) and `CC = 0`. -/
theorem parse_47410010 :
    (xTS_PacketHeader.Parse hdrPid100).PID = 0x100 ∧
    (xTS_PacketHeader.Parse hdrPid100).S = 1 ∧
    (xTS_PacketHeader.Parse hdrPid100).AFC = 1 ∧
    (xTS_PacketHeader.Parse hdrPid100).CC = 0 := by
  decide

/-- C6, the code at the failing inputs. For `AFC = 1` (payload only)
`hasPayload()` is false; for `AFC = 2` (adaptation field only) it is true; and
for `AFC = 0` `hasAdaptationField()` is true. -/
theorem afc_predicates_at_failing_inputs :
    ((xTS_PacketHeader.Parse hdrPid100).AFC = 1 ∧
      (xTS_PacketHeader.Parse hdrPid100).hasPayload = false) ∧
    ((xTS_PacketHeader.Parse hdrAfc2).AFC = 2 ∧
      (xTS_PacketHeader.Parse hdrAfc2).hasPayload = true) ∧
    ((xTS_PacketHeader.Parse hdrAfc0).AFC = 0 ∧
      (xTS_PacketHeader.Parse hdrAfc0).hasAdaptationField = true) := by
  decide

/-- C8, the code at the failing input. With the length byte 0 at offset 4 and
the byte `FF` at offset 5, `Parse` after `Reset` yields length 0 and sets all
eight flags: the byte at offset 5 is read although it lies after the field. -/
theorem parse_adaptation_field_length_zero :
    rd pktAfl0 4 = 0 ∧ rd pktAfl0 5 = 0xFF ∧
    xTS_AdaptationField.Reset.Parse pktAfl0 (xTS_PacketHeader.Parse pktAfl0).getAFC =
      { AFL := 0, DC := 1, RA := 1, SP := 1, PCR := 1, OPCR := 1, SP2 := 1, TP := 1, EX := 1 } ∧
    xPES_Assembler.payloadOffset (xTS_PacketHeader.Parse pktAfl0)
      (xTS_AdaptationField.Reset.Parse pktAfl0 (xTS_PacketHeader.Parse pktAfl0).getAFC) = 5 := by
  decide

/-! ## The copy loop and `xBufferAppend` -/

open xPES_Assembler

theorem copyLoop_frame (Data : BytePtr) : ∀ (n i : Nat) (s : xPES_Assembler),
    (copyLoop Data i n s).m_BufferSize = s.m_BufferSize ∧
    (copyLoop Data i n s).m_PID = s.m_PID ∧
    (copyLoop Data i n s).m_LastContinuityCounter = s.m_LastContinuityCounter ∧
    (copyLoop Data i n s).m_Started = s.m_Started ∧
    (copyLoop Data i n s).m_PESH = s.m_PESH ∧
    (copyLoop Data i n s).pFile = s.pFile := by
  intro n
  induction n with
  | zero => intro i s; simp [copyLoop]
  | succ n ih =>
    intro i s
    simp only [copyLoop]
    exact ih (i + 1) _

/-- The copy loop leaves the pointer as it is, and touches `nullDeref` exactly
when it stores at least one byte through a `NULL` pointer. -/
theorem copyLoop_null (Data : BytePtr) : ∀ (n i : Nat) (s : xPES_Assembler),
    (copyLoop Data i n s).m_BufferIsNull = s.m_BufferIsNull ∧
    (copyLoop Data i n s).nullDeref =
      (s.nullDeref || (decide (0 < n) && s.m_BufferIsNull)) := by
  intro n
  induction n with
  | zero => intro i s; simp [copyLoop]
  | succ n ih =>
    intro i s
    simp only [copyLoop]
    obtain ⟨h1, h2⟩ := ih (i + 1)
      { s with
        m_Buffer := store s.m_Buffer s.m_DataOffset (rd Data i)
        m_DataOffset := (s.m_DataOffset + 1) % 2 ^ 32
        nullDeref := s.nullDeref || s.m_BufferIsNull }
    refine ⟨h1, ?_⟩
    rw [h2]
    cases s.nullDeref <;> cases s.m_BufferIsNull <;> simp

theorem copyLoop_offset (Data : BytePtr) : ∀ (n i : Nat) (s : xPES_Assembler),
    s.m_DataOffset + n < 2 ^ 32 → (copyLoop Data i n s).m_DataOffset = s.m_DataOffset + n := by
  intro n
  induction n with
  | zero => intro i s _; simp [copyLoop]
  | succ n ih =>
    intro i s h
    simp only [copyLoop]
    rw [ih]
    · simp only
      rw [Nat.mod_eq_of_lt (by omega)]
      omega
    · simp only
      rw [Nat.mod_eq_of_lt (by omega)]
      omega

theorem copyLoop_buffer (Data : BytePtr) : ∀ (n i : Nat) (s : xPES_Assembler),
    s.m_DataOffset + n < 2 ^ 32 → ∀ j,
    (copyLoop Data i n s).m_Buffer j =
      if s.m_DataOffset ≤ j ∧ j < s.m_DataOffset + n then rd Data (i + (j - s.m_DataOffset))
      else s.m_Buffer j := by
  intro n
  induction n with
  | zero =>
    intro i s _ j
    rw [if_neg (by omega)]
    simp [copyLoop]
  | succ n ih =>
    intro i s h j
    simp only [copyLoop]
    rw [ih]
    · simp only [store]
      rw [Nat.mod_eq_of_lt (by omega)]
      by_cases h1 : j = s.m_DataOffset
      · subst h1
        simp
      · by_cases h2 : s.m_DataOffset + 1 ≤ j ∧ j < s.m_DataOffset + 1 + n
        · rw [if_pos h2, if_pos (by omega)]
          congr 1
          omega
        · rw [if_neg h2, if_neg h1, if_neg (by omega)]
    · simp only
      rw [Nat.mod_eq_of_lt (by omega)]
      omega


theorem bytesAt_length (Input : BytePtr) (n : Nat) : (bytesAt Input n).length = n := by
  simp [bytesAt]

theorem bytesAt_congr (I J : BytePtr) (n : Nat) (h : ∀ j, j < n → rd I j = rd J j) :
    bytesAt I n = bytesAt J n := by
  simp only [bytesAt]
  apply List.map_congr_left
  intro j hj
  exact h j (List.mem_range.mp hj)

theorem bytesAt_add (Input : BytePtr) (m n : Nat) :
    bytesAt Input (m + n) = bytesAt Input m ++ bytesAt (advance Input m) n := by
  simp only [bytesAt, List.range_add, List.map_append, List.map_map]
  rfl

theorem bytesAt_drop (Input : BytePtr) (n k : Nat) :
    (bytesAt Input n).drop k = bytesAt (advance Input k) (n - k) := by
  by_cases h : k ≤ n
  · obtain ⟨m, rfl⟩ := Nat.exists_eq_add_of_le h
    rw [bytesAt_add, List.drop_append_of_le_length (by simp [bytesAt_length])]
    rw [List.drop_of_length_le (by simp [bytesAt_length])]
    simp
  · rw [List.drop_of_length_le (by simp [bytesAt_length]; omega)]
    have : n - k = 0 := by omega
    simp [this, bytesAt]

/-! ## One call of `AbsorbPacket` -/

theorem xBufferAppend_eq (s : xPES_Assembler) (Data : BytePtr) (Size : Nat) :
    s.xBufferAppend Data Size =
      flushed (copyLoop Data (loopStart s) (Size - loopStart s) (loopEntry s)) := by
  cases hst : s.m_Started <;>
    simp [xBufferAppend, flushed, loopStart, loopEntry, hst, xBufferReset, targetSize]

theorem absorb_self (a : xPES_Assembler) (p : Packet) :
    (absorb a p).self =
      (prepared a p).xBufferAppend (payloadPtr p) (payloadLength p.header p.af) := by
  by_cases h : p.header.getS = 0 <;> simp [absorb, AbsorbPacket, prepared, payloadPtr, h]

theorem payloadLength_lt (h : xTS_PacketHeader) (af : xTS_AdaptationField) :
    payloadLength h af < 256 := Nat.mod_lt _ (by norm_num)

theorem absorb_res (a : xPES_Assembler) (p : Packet) :
    (absorb a p).res =
      if p.header.getS ≠ 0 then eResult.AssemblingStarted
      else if (a.m_DataOffset + payloadLength p.header p.af) % 2 ^ 32 = a.m_BufferSize then
        eResult.AssemblingFinished
      else eResult.AssemblingContinue := by
  by_cases h : p.header.getS = 0 <;> simp [absorb, AbsorbPacket, h]

theorem absorb_ccNotValid (a : xPES_Assembler) (p : Packet) :
    (absorb a p).ccNotValid =
      ((p.header.getCC : Int) != Int.tmod (a.m_LastContinuityCounter + 1) 16) := by
  simp [absorb, AbsorbPacket]

theorem flushed_frame (s : xPES_Assembler) :
    (flushed s).m_BufferSize = s.m_BufferSize ∧ (flushed s).m_DataOffset = s.m_DataOffset ∧
    (flushed s).m_Buffer = s.m_Buffer ∧ (flushed s).m_PESH = s.m_PESH ∧
    (flushed s).m_LastContinuityCounter = s.m_LastContinuityCounter ∧
    (flushed s).m_Started = s.m_Started := by
  unfold flushed
  split <;> simp

theorem absorb_last (a : xPES_Assembler) (p : Packet) :
    (absorb a p).self.m_LastContinuityCounter = toInt8 (p.header.getCC : Int) := by
  rw [absorb_self, xBufferAppend_eq, (flushed_frame _).2.2.2.2.1, (copyLoop_frame _ _ _ _).2.2.1]
  unfold loopEntry
  split <;> rfl

theorem absorb_size (a : xPES_Assembler) (p : Packet) :
    (absorb a p).self.m_BufferSize =
      if p.header.getS ≠ 0 then targetSize (a.m_PESH.Reset.Parse (payloadPtr p))
      else a.m_BufferSize := by
  rw [absorb_self, xBufferAppend_eq, (flushed_frame _).1, (copyLoop_frame _ _ _ _).1]
  by_cases h : p.header.getS = 0 <;> simp [loopEntry, prepared, h]

theorem absorb_pesh (a : xPES_Assembler) (p : Packet) :
    (absorb a p).self.m_PESH =
      if p.header.getS ≠ 0 then a.m_PESH.Reset.Parse (payloadPtr p) else a.m_PESH := by
  rw [absorb_self, xBufferAppend_eq, (flushed_frame _).2.2.2.1, (copyLoop_frame _ _ _ _).2.2.2.2.1]
  by_cases h : p.header.getS = 0 <;> simp [loopEntry, prepared, h]

theorem absorb_pFile (a : xPES_Assembler) (p : Packet) :
    (absorb a p).self.pFile =
      if (absorb a p).self.m_DataOffset = (absorb a p).self.m_BufferSize then
        a.pFile ++ bytesAt (absorb a p).self.m_Buffer (absorb a p).self.m_BufferSize
      else a.pFile := by
  rw [absorb_self, xBufferAppend_eq]
  have hf := (copyLoop_frame (payloadPtr p) (payloadLength p.header p.af - loopStart (prepared a p))
    (loopStart (prepared a p)) (loopEntry (prepared a p))).2.2.2.2.2
  have he : (loopEntry (prepared a p)).pFile = a.pFile := by
    unfold loopEntry
    split <;> rfl
  unfold flushed
  split
  · rename_i h
    simp [h, hf, he]
  · rename_i h
    simp [h, hf, he]

/-- A continuation packet appends its whole payload slice at the write offset. -/
theorem absorb_cont (a : xPES_Assembler) (p : Packet) (hS : p.header.getS = 0)
    (hoff : a.m_DataOffset + payloadLength p.header p.af < 2 ^ 32) :
    (absorb a p).self.m_DataOffset = a.m_DataOffset + payloadLength p.header p.af ∧
    ∀ j, (absorb a p).self.m_Buffer j =
      if a.m_DataOffset ≤ j ∧ j < a.m_DataOffset + payloadLength p.header p.af then
        rd (payloadPtr p) (j - a.m_DataOffset)
      else a.m_Buffer j := by
  rw [absorb_self, xBufferAppend_eq, (flushed_frame _).2.1, (flushed_frame _).2.2.1]
  have e1 : loopEntry (prepared a p) = prepared a p := by simp [loopEntry, prepared, hS]
  have e2 : loopStart (prepared a p) = 0 := by simp [loopStart, prepared, hS]
  rw [e1, e2, Nat.sub_zero]
  have ho : (prepared a p).m_DataOffset = a.m_DataOffset := rfl
  have hb : (prepared a p).m_Buffer = a.m_Buffer := rfl
  refine ⟨?_, ?_⟩
  · rw [copyLoop_offset _ _ _ _ (by rw [ho]; exact hoff), ho]
  · intro j
    rw [copyLoop_buffer _ _ _ _ (by rw [ho]; exact hoff), ho, hb]
    simp

/-- A start packet restarts the write offset and copies what follows the first
`PES_header_data_length` bytes of its payload slice. -/
theorem absorb_start (a : xPES_Assembler) (p : Packet) (hS : p.header.getS ≠ 0) :
    (absorb a p).self.m_DataOffset =
      payloadLength p.header p.af -
        (a.m_PESH.Reset.Parse (payloadPtr p)).get_PES_header_data_length ∧
    ∀ j, (absorb a p).self.m_Buffer j =
      if j < payloadLength p.header p.af -
          (a.m_PESH.Reset.Parse (payloadPtr p)).get_PES_header_data_length then
        rd (payloadPtr p) ((a.m_PESH.Reset.Parse (payloadPtr p)).get_PES_header_data_length + j)
      else a.m_Buffer j := by
  rw [absorb_self, xBufferAppend_eq, (flushed_frame _).2.1, (flushed_frame _).2.2.1]
  have hl := payloadLength_lt p.header p.af
  have e2 : loopStart (prepared a p) =
      (a.m_PESH.Reset.Parse (payloadPtr p)).get_PES_header_data_length := by
    simp [loopStart, prepared, hS]
  have ho : (loopEntry (prepared a p)).m_DataOffset = 0 := by simp [loopEntry, prepared, hS]
  have hb : (loopEntry (prepared a p)).m_Buffer = a.m_Buffer := by
    simp [loopEntry, prepared, hS]
  rw [e2]
  refine ⟨?_, ?_⟩
  · rw [copyLoop_offset _ _ _ _ (by rw [ho]; omega), ho, Nat.zero_add]
  · intro j
    rw [copyLoop_buffer _ _ _ _ (by rw [ho]; omega), ho, hb]
    simp

theorem flushed_null (s : xPES_Assembler) :
    (flushed s).m_BufferIsNull = s.m_BufferIsNull ∧
    (s.m_BufferIsNull = false → (flushed s).nullDeref = s.nullDeref) := by
  unfold flushed
  split
  · refine ⟨rfl, ?_⟩
    intro h
    simp [h]
  · exact ⟨rfl, fun _ => rfl⟩

/-- A call on a start packet, or on any packet once the buffer was allocated,
leaves `m_Buffer` allocated and goes through no `NULL` pointer. -/
theorem absorb_allocated (a : xPES_Assembler) (p : Packet)
    (h : p.header.getS ≠ 0 ∨ a.m_BufferIsNull = false) :
    (absorb a p).self.m_BufferIsNull = false ∧ (absorb a p).self.nullDeref = a.nullDeref := by
  have he : (loopEntry (prepared a p)).m_BufferIsNull = false ∧
      (loopEntry (prepared a p)).nullDeref = a.nullDeref := by
    unfold loopEntry
    split
    · exact ⟨rfl, rfl⟩
    · rename_i hst
      rcases h with h | h
      · exact absurd (by simp [prepared, h]) hst
      · exact ⟨h, rfl⟩
  have hc := copyLoop_null (payloadPtr p)
    (payloadLength p.header p.af - loopStart (prepared a p)) (loopStart (prepared a p))
    (loopEntry (prepared a p))
  rw [he.1, he.2] at hc
  have hn : (copyLoop (payloadPtr p) (loopStart (prepared a p))
      (payloadLength p.header p.af - loopStart (prepared a p))
      (loopEntry (prepared a p))).nullDeref = a.nullDeref := by
    rw [hc.2]
    simp
  have hf := flushed_null (copyLoop (payloadPtr p) (loopStart (prepared a p))
    (payloadLength p.header p.af - loopStart (prepared a p)) (loopEntry (prepared a p)))
  rw [absorb_self, xBufferAppend_eq]
  exact ⟨hf.1.trans hc.1, (hf.2 hc.1).trans hn⟩

/-- A run of packets on an allocated buffer goes through no `NULL` pointer. -/
theorem absorbAll_allocated (ps : List Packet) : ∀ (a : xPES_Assembler),
    a.m_BufferIsNull = false →
    (absorbAll a ps).m_BufferIsNull = false ∧ (absorbAll a ps).nullDeref = a.nullDeref := by
  induction ps with
  | nil => intro a h; exact ⟨h, rfl⟩
  | cons p ps ih =>
    intro a h
    have h1 := absorb_allocated a p (Or.inr h)
    have h2 := ih (absorb a p).self h1.1
    simp only [absorbAll]
    exact ⟨h2.1, h2.2.trans h1.2⟩

/-! ## The PES header of a start packet -/

theorem shl8_step16 (a b : Nat) (ha : a < 2 ^ 8) (hb : b < 2 ^ 8) :
    (a <<< 8) % 2 ^ 16 ||| b = a * 256 + b := by
  have h := shl_or_eq_add a b 8 hb
  rw [Nat.shiftLeft_eq] at h
  rw [Nat.shiftLeft_eq, Nat.mod_eq_of_lt (by omega), h]
  norm_num

theorem pes_parse_length (x : xPES_PacketHeader) (Data : BytePtr) :
    (x.Reset.Parse Data).getPacketLength = rd Data 4 * 256 + rd Data 5 := by
  have h4 := rd_lt Data 4
  have h5 := rd_lt Data 5
  simp only [xPES_PacketHeader.getPacketLength, xPES_PacketHeader.Parse,
    xPES_PacketHeader.Reset, List.range, List.range.loop, List.foldl, Nat.add_zero,
    Nat.reduceAdd]
  rw [shl8_step16 0 _ (by norm_num) (by simpa using h4),
    shl8_step16 _ _ (by omega) (by simpa using h5)]
  omega

theorem mem_eStreamId (sid : Nat) :
    sid ∈ xPES_PacketHeader.eStreamId ↔
      ¬ (sid ≠ 0xBC ∧ sid ≠ 0xBE ∧ sid ≠ 0xBF ∧ sid ≠ 0xF0 ∧ sid ≠ 0xF1 ∧ sid ≠ 0xFF ∧
          sid ≠ 0xF2 ∧ sid ≠ 0xF8) := by
  simp only [xPES_PacketHeader.eStreamId, List.mem_cons, List.mem_singleton, List.mem_nil_iff,
    or_false]
  constructor <;> intro h <;> omega

theorem pes_parse_hdl (x : xPES_PacketHeader) (Data : BytePtr) :
    (x.Reset.Parse Data).get_PES_header_data_length =
      if rd Data 3 ∈ xPES_PacketHeader.eStreamId then x.get_PES_header_data_length
      else (rd Data 8 + 9) % 256 := by
  by_cases h : rd Data 3 ∈ xPES_PacketHeader.eStreamId
  · rw [if_pos h]
    rw [mem_eStreamId] at h
    simp only [xPES_PacketHeader.get_PES_header_data_length, xPES_PacketHeader.Parse,
      xPES_PacketHeader.Reset]
    rw [if_neg h]
  · rw [if_neg h]
    rw [mem_eStreamId, not_not] at h
    simp only [xPES_PacketHeader.get_PES_header_data_length, xPES_PacketHeader.Parse,
      xPES_PacketHeader.Reset]
    rw [if_pos h]
    omega

/-- The target size and the skipped bytes for a start packet with an ordinary
stream-id and a PES-header-data-length of at most 246. -/
theorem start_short_header (a : xPES_Assembler) (p : Packet)
    (hsid : pesStreamId p ∉ xPES_PacketHeader.eStreamId) (hH : pesHeaderDataLength p ≤ 246) :
    (a.m_PESH.Reset.Parse (payloadPtr p)).get_PES_header_data_length =
      pesHeaderDataLength p + 9 ∧
    ((targetSize (a.m_PESH.Reset.Parse (payloadPtr p)) : Nat) : Int) =
      ((pesPacketLength p : Int) - pesHeaderDataLength p - 3) % 2 ^ 32 := by
  have hd : (a.m_PESH.Reset.Parse (payloadPtr p)).get_PES_header_data_length =
      pesHeaderDataLength p + 9 := by
    unfold pesStreamId at hsid
    rw [pes_parse_hdl, if_neg hsid]
    unfold pesHeaderDataLength at *
    omega
  refine ⟨hd, ?_⟩
  unfold targetSize
  rw [hd, pes_parse_length]
  unfold pesPacketLength pesHeaderDataLength
  omega

/-! ## Runs of continuation packets -/

theorem payloadSlice_length (p : Packet) :
    (payloadSlice p).length = payloadLength p.header p.af := by
  simp [payloadSlice, bytesAt_length]

theorem absorb_cont_bytes (a : xPES_Assembler) (p : Packet) (hS : p.header.getS = 0)
    (hoff : a.m_DataOffset + payloadLength p.header p.af < 2 ^ 32) :
    bytesAt (absorb a p).self.m_Buffer (a.m_DataOffset + payloadLength p.header p.af) =
      bytesAt a.m_Buffer a.m_DataOffset ++ payloadSlice p := by
  have hb := (absorb_cont a p hS hoff).2
  rw [bytesAt_add]
  congr 1
  · apply bytesAt_congr
    intro j hj
    simp only [rd]
    rw [hb j, if_neg (by omega)]
  · unfold payloadSlice
    apply bytesAt_congr
    intro j hj
    simp only [rd, advance]
    rw [hb _, if_pos (by omega)]
    simp only [rd]
    rw [Nat.mod_mod]
    congr 2
    omega

theorem absorb_start_bytes (a : xPES_Assembler) (p : Packet) (hS : p.header.getS ≠ 0) :
    bytesAt (absorb a p).self.m_Buffer (absorb a p).self.m_DataOffset =
      (payloadSlice p).drop
        (a.m_PESH.Reset.Parse (payloadPtr p)).get_PES_header_data_length := by
  have h := absorb_start a p hS
  rw [h.1]
  unfold payloadSlice
  rw [bytesAt_drop]
  apply bytesAt_congr
  intro j hj
  simp only [rd, advance]
  rw [h.2 j, if_pos hj]
  simp only [rd]
  rw [Nat.mod_mod]

theorem mem_tail_S {c : Packet} {cs : List Packet}
    (hcs : ∀ x ∈ c :: cs, x.header.getS = 0) : ∀ x ∈ cs, x.header.getS = 0 :=
  fun x hx => hcs x (List.mem_cons_of_mem c hx)

/-- A run of continuation packets appends their payload slices in order, as
long as the `uint32_t` write offset does not wrap. -/
theorem cont_run (cs : List Packet) : ∀ (s : xPES_Assembler),
    (∀ c ∈ cs, c.header.getS = 0) →
    s.m_DataOffset + ((cs.map payloadSlice).flatten).length < 2 ^ 32 →
    (absorbAll s cs).m_DataOffset = s.m_DataOffset + ((cs.map payloadSlice).flatten).length ∧
    (absorbAll s cs).m_BufferSize = s.m_BufferSize ∧
    bytesAt (absorbAll s cs).m_Buffer (s.m_DataOffset + ((cs.map payloadSlice).flatten).length) =
      bytesAt s.m_Buffer s.m_DataOffset ++ (cs.map payloadSlice).flatten := by
  induction cs with
  | nil => intro s _ _; simp [absorbAll]
  | cons c cs ih =>
    intro s hcs hfit
    have hS : c.header.getS = 0 := hcs c (List.mem_cons_self c cs)
    simp only [List.map_cons, List.flatten_cons, List.length_append, payloadSlice_length]
      at hfit ⊢
    have hc := absorb_cont s c hS (by omega)
    have hsz : (absorb s c).self.m_BufferSize = s.m_BufferSize := by
      rw [absorb_size, if_neg (by simp [hS])]
    have hi := ih (absorb s c).self (mem_tail_S hcs) (by rw [hc.1]; omega)
    simp only [absorbAll]
    refine ⟨?_, ?_, ?_⟩
    · rw [hi.1, hc.1]; omega
    · rw [hi.2.1, hsz]
    · have h3 := hi.2.2
      rw [hc.1, absorb_cont_bytes s c hS (by omega)] at h3
      rw [← Nat.add_assoc, h3, List.append_assoc]

/-- The result of the last call of a run of continuation packets. -/
theorem cont_run_last (cs : List Packet) : ∀ (s : xPES_Assembler),
    (∀ c ∈ cs, c.header.getS = 0) → cs ≠ [] →
    s.m_DataOffset + ((cs.map payloadSlice).flatten).length < 2 ^ 32 →
    (results s cs).getLast? =
      some (if s.m_DataOffset + ((cs.map payloadSlice).flatten).length = s.m_BufferSize then
        eResult.AssemblingFinished else eResult.AssemblingContinue) := by
  induction cs with
  | nil => intro s _ h; exact absurd rfl h
  | cons c cs ih =>
    intro s hcs _ hfit
    have hS : c.header.getS = 0 := hcs c (List.mem_cons_self c cs)
    simp only [List.map_cons, List.flatten_cons, List.length_append, payloadSlice_length]
      at hfit ⊢
    cases cs with
    | nil =>
      simp only [results, List.getLast?_singleton, List.map_nil, List.flatten_nil,
        List.length_nil, Nat.add_zero] at hfit ⊢
      rw [absorb_res, if_neg (by simp [hS]), Nat.mod_eq_of_lt hfit]
    | cons d ds =>
      have hc := absorb_cont s c hS (by omega)
      have hsz : (absorb s c).self.m_BufferSize = s.m_BufferSize := by
        rw [absorb_size, if_neg (by simp [hS])]
      have hi := ih (absorb s c).self (mem_tail_S hcs) (by simp) (by rw [hc.1]; omega)
      rw [hc.1, hsz] at hi
      simp only [results, List.getLast?_cons_cons] at hi ⊢
      rw [hi, Nat.add_assoc]

/-! ## Reassembly (C1, C2) -/

/-- Reassembly for PES headers that fit the 8-bit header-length member: a start
packet (ordinary stream-id, PES-header-data-length `H ≤ 246`, PES-packet-length
`L`) followed by at least one continuation packet, whose payload slices after
the `9 + H` header bytes total `L - H - 3` bytes, ends with
`AssemblingFinished`, and the buffer holds exactly those bytes in packet order. -/
theorem reassembly_short_header (a : xPES_Assembler) (p : Packet) (cs : List Packet)
    (hS : p.header.getS ≠ 0)
    (hsid : pesStreamId p ∉ xPES_PacketHeader.eStreamId)
    (hH : pesHeaderDataLength p ≤ 246)
    (hcs : ∀ c ∈ cs, c.header.getS = 0) (hne : cs ≠ [])
    (htotal : ((payloadSlice p).drop (9 + pesHeaderDataLength p)).length +
      ((cs.map payloadSlice).flatten).length + pesHeaderDataLength p + 3 = pesPacketLength p) :
    (results a (p :: cs)).getLast? = some eResult.AssemblingFinished ∧
    (absorbAll a (p :: cs)).m_BufferSize = pesPacketLength p - pesHeaderDataLength p - 3 ∧
    (absorbAll a (p :: cs)).m_DataOffset = pesPacketLength p - pesHeaderDataLength p - 3 ∧
    bytesAt (absorbAll a (p :: cs)).m_Buffer (pesPacketLength p - pesHeaderDataLength p - 3) =
      (payloadSlice p).drop (9 + pesHeaderDataLength p) ++ (cs.map payloadSlice).flatten := by
  obtain ⟨hd, ht⟩ := start_short_header a p hsid hH
  have hst := absorb_start a p hS
  have hbytes := absorb_start_bytes a p hS
  have hsize := absorb_size a p
  rw [if_pos hS] at hsize
  rw [hd] at hst hbytes
  have hL : pesPacketLength p < 65536 := by
    have h4 := rd_lt (payloadPtr p) 4
    have h5 := rd_lt (payloadPtr p) 5
    unfold pesPacketLength
    omega
  have hlen : ((payloadSlice p).drop (9 + pesHeaderDataLength p)).length =
      payloadLength p.header p.af - (pesHeaderDataLength p + 9) := by
    rw [List.length_drop, payloadSlice_length]
    omega
  rw [hlen] at htotal
  have hT : targetSize (a.m_PESH.Reset.Parse (payloadPtr p)) =
      pesPacketLength p - pesHeaderDataLength p - 3 := by omega
  rw [hT] at hsize
  have hfit : (absorb a p).self.m_DataOffset + ((cs.map payloadSlice).flatten).length <
      2 ^ 32 := by rw [hst.1]; omega
  have hrun := cont_run cs (absorb a p).self hcs hfit
  have hlast := cont_run_last cs (absorb a p).self hcs hne hfit
  have hsum : (absorb a p).self.m_DataOffset + ((cs.map payloadSlice).flatten).length =
      pesPacketLength p - pesHeaderDataLength p - 3 := by rw [hst.1]; omega
  rw [hsum] at hrun hlast
  rw [hsize] at hrun hlast
  rw [if_pos rfl] at hlast
  refine ⟨?_, hrun.2.1, hrun.1, ?_⟩
  · cases cs with
    | nil => exact absurd rfl hne
    | cons c cs =>
      simp only [results, List.getLast?_cons_cons] at hlast ⊢
      exact hlast
  · have h3 := hrun.2.2
    rw [hbytes, Nat.add_comm (pesHeaderDataLength p) 9] at h3
    exact h3

/-- The reassembly theorem at `pktStart9` followed by `pktCont3`: the last call
returns `AssemblingFinished` and the buffer holds the 6 bytes of the unit. -/
theorem reassembly_short_header_witness :
    (results fresh (pktStart9 :: [pktCont3])).getLast? = some eResult.AssemblingFinished ∧
    bytesAt (absorbAll fresh (pktStart9 :: [pktCont3])).m_Buffer 6 =
      [0xA1, 0xA2, 0xA3, 0xC1, 0xC2, 0xC3] :=
  ⟨(reassembly_short_header fresh pktStart9 [pktCont3] (by decide) (by decide) (by decide)
    (by decide) (List.cons_ne_nil _ _) (by decide)).1, by decide⟩

/-- C1, the code at the failing input. A start packet with stream-id `C0`,
`H = 247` and `L = 253`, followed by one continuation packet of 3 bytes, meets
the conditions of the claim (the bytes after the `9 + H` header bytes total
`L - H - 3 = 3`), yet the last call returns `AssemblingContinue`: `9 + H = 256`
is stored in 8 bits as 0, so the target size becomes 259 and all 12 bytes of
the first payload slice are copied. -/
theorem reassembly_long_header_continues :
    pktLongHeader.header.getS = 1 ∧ pktCont3.header.getS = 0 ∧
    pesStreamId pktLongHeader ∉ xPES_PacketHeader.eStreamId ∧
    pesHeaderDataLength pktLongHeader = 247 ∧ pesPacketLength pktLongHeader = 253 ∧
    (payloadSlice pktLongHeader).drop (9 + 247) ++ payloadSlice pktCont3 = [0xC1, 0xC2, 0xC3] ∧
    results fresh [pktLongHeader, pktCont3] =
      [eResult.AssemblingStarted, eResult.AssemblingContinue] ∧
    (absorbAll fresh [pktLongHeader, pktCont3]).m_PESH.PES_header_data_length = 0 ∧
    (absorbAll fresh [pktLongHeader, pktCont3]).m_BufferSize = 259 ∧
    (absorbAll fresh [pktLongHeader, pktCont3]).m_DataOffset = 15 ∧
    bytesAt (absorbAll fresh [pktLongHeader, pktCont3]).m_Buffer 3 = [0x00, 0x00, 0x01] := by
  decide

theorem delivered_eq (a : xPES_Assembler) (p : Packet) :
    delivered a p =
      if (absorb a p).self.m_DataOffset = (absorb a p).self.m_BufferSize then
        bytesAt (absorb a p).self.m_Buffer (absorb a p).self.m_BufferSize
      else [] := by
  unfold delivered
  rw [absorb_pFile]
  split <;> simp

/-- A run of continuation packets keeps the target size. -/
theorem cont_run_size (cs : List Packet) : ∀ (s : xPES_Assembler),
    (∀ c ∈ cs, c.header.getS = 0) → (absorbAll s cs).m_BufferSize = s.m_BufferSize := by
  induction cs with
  | nil => intro s _; rfl
  | cons c cs ih =>
    intro s hcs
    have hS : c.header.getS = 0 := hcs c (List.mem_cons_self c cs)
    simp only [absorbAll]
    rw [ih _ (mem_tail_S hcs), absorb_size, if_neg (by simp [hS])]

/-- C2, as stated, fails: for the start packet `pktLength0` (stream-id `C0`,
`L = 0`, `H = 0`) the target size is `4294967293`, not `L - H - 3`. -/
theorem target_size_length0 :
    pktLength0.header.getS = 1 ∧ pesStreamId pktLength0 ∉ xPES_PacketHeader.eStreamId ∧
    pesPacketLength pktLength0 = 0 ∧ pesHeaderDataLength pktLength0 = 0 ∧
    (absorb fresh pktLength0).self.m_BufferSize = 4294967293 ∧
    ¬ (((absorb fresh pktLength0).self.m_BufferSize : Int) =
        (pesPacketLength pktLength0 : Int) - (pesHeaderDataLength pktLength0 : Int) - 3) := by
  decide

/-- C2, amended. For a start packet with an ordinary stream-id, `H ≤ 246` and
`L ≥ H + 3`, the target size set by the assembler is `L - H - 3`; it stays so
over any continuation packets, and every call that leaves
`m_DataOffset == m_BufferSize` writes exactly `L - H - 3` bytes to the file. -/
theorem target_size_short_header (a : xPES_Assembler) (p : Packet) (cs : List Packet)
    (hS : p.header.getS ≠ 0)
    (hsid : pesStreamId p ∉ xPES_PacketHeader.eStreamId)
    (hH : pesHeaderDataLength p ≤ 246)
    (hL : pesHeaderDataLength p + 3 ≤ pesPacketLength p)
    (hcs : ∀ c ∈ cs, c.header.getS = 0) :
    (absorb a p).self.m_BufferSize = pesPacketLength p - pesHeaderDataLength p - 3 ∧
    (absorbAll a (p :: cs)).m_BufferSize = pesPacketLength p - pesHeaderDataLength p - 3 ∧
    ((absorb a p).self.m_DataOffset = (absorb a p).self.m_BufferSize →
      (delivered a p).length = pesPacketLength p - pesHeaderDataLength p - 3) ∧
    (∀ c : Packet, c.header.getS = 0 →
      (absorb (absorbAll a (p :: cs)) c).self.m_DataOffset =
        (absorb (absorbAll a (p :: cs)) c).self.m_BufferSize →
      (delivered (absorbAll a (p :: cs)) c).length =
        pesPacketLength p - pesHeaderDataLength p - 3) := by
  obtain ⟨_, ht⟩ := start_short_header a p hsid hH
  have hL2 : pesPacketLength p < 65536 := by
    have h4 := rd_lt (payloadPtr p) 4
    have h5 := rd_lt (payloadPtr p) 5
    unfold pesPacketLength
    omega
  have hsize := absorb_size a p
  rw [if_pos hS] at hsize
  have hT : (absorb a p).self.m_BufferSize =
      pesPacketLength p - pesHeaderDataLength p - 3 := by omega
  have hrun : (absorbAll a (p :: cs)).m_BufferSize =
      pesPacketLength p - pesHeaderDataLength p - 3 := by
    simp only [absorbAll]
    rw [cont_run_size cs _ hcs, hT]
  refine ⟨hT, hrun, ?_, ?_⟩
  · intro h
    rw [delivered_eq, if_pos h, bytesAt_length, hT]
  · intro c hc h
    rw [delivered_eq, if_pos h, bytesAt_length, absorb_size, if_neg (by simp [hc]), hrun]

/-- C2, amended, at `pktStart9` followed by `pktCont3`: the target size is 6 and
the 6 bytes of the unit are written to the file. -/
theorem target_size_short_header_witness :
    (absorbAll fresh (pktStart9 :: [pktCont3])).m_BufferSize = 9 - 0 - 3 ∧
    (absorbAll fresh (pktStart9 :: [pktCont3])).pFile =
      [0xA1, 0xA2, 0xA3, 0xC1, 0xC2, 0xC3] :=
  ⟨(target_size_short_header fresh pktStart9 [pktCont3] (by decide) (by decide) (by decide)
    (by decide) (by decide)).2.1, by decide⟩

/-! ## Continuity counter (C7) -/

theorem toInt8_small (n : Nat) (h : n ≤ 15) : toInt8 (n : Int) = n := by
  unfold toInt8
  omega

theorem tmod_small (x : Int) (h0 : 0 ≤ x) : Int.tmod (x + 1) 16 = (x + 1) % 16 := by
  rw [Int.tmod_eq_emod (by omega) (by norm_num)]

/-- The continuity flag of a call and the counter it leaves, for a counter that
is not negative and a header whose `CC` is in `0..15`. -/
theorem absorb_cc (a : xPES_Assembler) (p : Packet)
    (h0 : 0 ≤ a.m_LastContinuityCounter) (hp : p.header.CC ≤ 15) :
    ((absorb a p).ccNotValid = true ↔
      (p.header.CC : Int) ≠ (a.m_LastContinuityCounter + 1) % 16) ∧
    (absorb a p).self.m_LastContinuityCounter = p.header.CC := by
  have hg : p.header.getCC = p.header.CC := by
    unfold xTS_PacketHeader.getCC
    omega
  rw [absorb_ccNotValid, absorb_last, hg, tmod_small _ h0, toInt8_small _ hp]
  simp

/-- C7. Continuity check. For a last-seen counter that is not negative (it is
15 after `Init` and a `CC` afterwards) and a packet whose
`CC` is in `0..15`, `"ContinuityCounter not valid"` is printed exactly when `CC`
differs from `(last + 1) mod 16`, and the last-seen counter becomes `CC`.
Consequently a constructed and initialised assembler fed four packets with `CC`
0, 1, 2, 4, the first of which starts a unit (so that the buffer is allocated
before anything is stored), prints the warning once, for the packet with
`CC = 4`, and none of the four calls goes through a `NULL` buffer pointer. -/
theorem continuity_check (a : xPES_Assembler) (p : Packet)
    (m : xPES_PacketHeader) (PID : Int) (p0 p1 p2 p3 : Packet)
    (h0 : 0 ≤ a.m_LastContinuityCounter) (hp : p.header.CC ≤ 15)
    (hs0 : p0.header.getS ≠ 0)
    (hc0 : p0.header.CC = 0) (hc1 : p1.header.CC = 1) (hc2 : p2.header.CC = 2)
    (hc3 : p3.header.CC = 4) :
    ((absorb a p).ccNotValid = true ↔
      (p.header.CC : Int) ≠ (a.m_LastContinuityCounter + 1) % 16) ∧
    (absorb a p).self.m_LastContinuityCounter = p.header.CC ∧
    ccFlags ((xPES_Assembler.construct m).Init PID) [p0, p1, p2, p3] =
      [false, false, false, true] ∧
    (absorbAll ((xPES_Assembler.construct m).Init PID) [p0, p1, p2, p3]).nullDeref = false := by
  refine ⟨(absorb_cc a p h0 hp).1, (absorb_cc a p h0 hp).2, ?_, ?_⟩
  swap
  · have a0 := absorb_allocated ((xPES_Assembler.construct m).Init PID) p0 (Or.inl hs0)
    have a1 := absorbAll_allocated [p1, p2, p3]
      (absorb ((xPES_Assembler.construct m).Init PID) p0).self a0.1
    simp only [absorbAll] at a1 ⊢
    rw [a1.2, a0.2]
    rfl
  have e0 : ((xPES_Assembler.construct m).Init PID).m_LastContinuityCounter = 15 := rfl
  have s0 := absorb_cc ((xPES_Assembler.construct m).Init PID) p0 (by rw [e0]; norm_num)
    (by omega)
  have s1 := absorb_cc (absorb ((xPES_Assembler.construct m).Init PID) p0).self p1
    (by rw [s0.2]; omega) (by omega)
  have s2 := absorb_cc
    (absorb (absorb ((xPES_Assembler.construct m).Init PID) p0).self p1).self p2
    (by rw [s1.2]; omega) (by omega)
  have s3 := absorb_cc
    (absorb (absorb (absorb ((xPES_Assembler.construct m).Init PID) p0).self p1).self p2).self p3
    (by rw [s2.2]; omega) (by omega)
  have f0 : (absorb ((xPES_Assembler.construct m).Init PID) p0).ccNotValid = false := by
    rw [← Bool.not_eq_true, s0.1, e0, hc0]
    norm_num
  have f1 : (absorb (absorb ((xPES_Assembler.construct m).Init PID) p0).self p1).ccNotValid =
      false := by
    rw [← Bool.not_eq_true, s1.1, s0.2, hc0, hc1]
    norm_num
  have f2 : (absorb (absorb (absorb ((xPES_Assembler.construct m).Init PID) p0).self
      p1).self p2).ccNotValid = false := by
    rw [← Bool.not_eq_true, s2.1, s1.2, hc1, hc2]
    norm_num
  have f3 : (absorb (absorb (absorb (absorb ((xPES_Assembler.construct m).Init PID) p0).self
      p1).self p2).self p3).ccNotValid = true := by
    rw [s3.1, s2.2, hc2, hc3]
    norm_num
  simp only [ccFlags, f0, f1, f2, f3]

/-- C7 at a unit of 12 bytes: after the start packet `pktStart15` (`CC = 0`) a
packet with `CC = 3` is flagged, and the run `pktStart15`, then the continuation
packets with `CC` 1, 2, 4, which completes the unit, is flagged at `CC = 4`
only. -/
theorem continuity_check_witness :
    ((absorb (absorb fresh pktStart15).self (pktCC 3)).ccNotValid = true ↔
      ((pktCC 3).header.CC : Int) ≠
        ((absorb fresh pktStart15).self.m_LastContinuityCounter + 1) % 16) ∧
    (absorb (absorb fresh pktStart15).self (pktCC 3)).self.m_LastContinuityCounter =
      (pktCC 3).header.CC ∧
    ccFlags ((xPES_Assembler.construct ⟨0, 0, 0, 0⟩).Init 136)
      [pktStart15, pktCC 1, pktCC 2, pktCC 4] = [false, false, false, true] ∧
    (absorbAll ((xPES_Assembler.construct ⟨0, 0, 0, 0⟩).Init 136)
      [pktStart15, pktCC 1, pktCC 2, pktCC 4]).nullDeref = false :=
  continuity_check (absorb fresh pktStart15).self (pktCC 3) ⟨0, 0, 0, 0⟩ 136
    pktStart15 (pktCC 1) (pktCC 2) (pktCC 4)
    (by decide) (by decide) (by decide) (by decide) (by decide) (by decide) (by decide)

/-! ## A start packet while a unit is in progress (C9) -/

/-- C10, the code at the failing input. From a constructed and initialised
assembler, one call with the start packet `pktOverlong` (a unit of 2 bytes,
4 bytes after the PES header) leaves the target size 2 and the write offset 4:
the bytes `A3` and `A4` were stored at offsets 2 and 3, after the 2 bytes that
were allocated. -/
theorem overlong_start_passes_target :
    (absorb fresh pktOverlong).self.m_BufferSize = 2 ∧
    (absorb fresh pktOverlong).self.m_DataOffset = 4 ∧
    ¬ ((absorb fresh pktOverlong).self.m_DataOffset ≤
        (absorb fresh pktOverlong).self.m_BufferSize) ∧
    bytesAt fresh.m_Buffer 4 = [0, 0, 0, 0] ∧
    bytesAt (absorb fresh pktOverlong).self.m_Buffer 4 = [0xA1, 0xA2, 0xA3, 0xA4] := by
  decide

/-! ## The sync byte and the PID filter (C11, C12) -/

theorem rd_store_ne (Input : BytePtr) (i j v : Nat) (h : j ≠ i) :
    rd (store Input i v) j = rd Input j := by
  simp [rd, store, h]

/-- C11, as stated, fails: for the buffer `bufBadSync`, whose first byte is `00`,
`Parse` produces a header (with `SB = 0` and PID 136), and the loop of `main`
hands the packet to `AbsorbPacket`, which returns `AssemblingStarted`. -/
theorem parse_bad_sync_produces_header :
    rd bufBadSync 0 ≠ 0x47 ∧
    xTS_PacketHeader.Parse bufBadSync =
      { SB := 0x00, E := 0, S := 1, T := 0, PID := 136, TSC := 0, AFC := 3, CC := 0 } ∧
    (mainStep xTS_AdaptationField.Reset fresh bufBadSync).1 =
      some eResult.AssemblingStarted := by
  decide

/-- C11, amended. For every input whose first byte is not `0x47`, `Parse` makes
no sync check: it produces the header it would produce behind the sync byte
`0x47`, except that `SB` holds the first byte as read. -/
theorem parse_ignores_sync_byte (Input : BytePtr) (h : rd Input 0 ≠ 0x47) :
    xTS_PacketHeader.Parse Input =
      { xTS_PacketHeader.Parse (store Input 0 0x47) with SB := rd Input 0 } ∧
    (xTS_PacketHeader.Parse Input).SB ≠ 0x47 := by
  rw [parse_arith, parse_arith, rd_store_ne Input 0 1 0x47 (by decide),
    rd_store_ne Input 0 2 0x47 (by decide), rd_store_ne Input 0 3 0x47 (by decide)]
  exact ⟨rfl, h⟩

/-- C11, amended, at `bufBadSync`. -/
theorem parse_ignores_sync_byte_witness :
    xTS_PacketHeader.Parse bufBadSync =
      { xTS_PacketHeader.Parse (store bufBadSync 0 0x47) with SB := rd bufBadSync 0 } ∧
    (xTS_PacketHeader.Parse bufBadSync).SB ≠ 0x47 :=
  parse_ignores_sync_byte bufBadSync (by decide)

set_option maxRecDepth 16384 in
/-- C12, the code at the failing input. The header bytes `47 01 88 10` carry the
13-bit PID `0x188 = 392`; `getPID()` returns 136, the low 8 bits, so the test
`getPID() == 136` of `main` hands the packet to `AbsorbPacket`. On a constructed
and initialised assembler that call stores through the `NULL` buffer pointer.
After the start packet `pktStart1000` of PID 136 (a unit of 997 bytes) it
returns `AssemblingContinue` and has appended the 184 payload bytes of the
packet of PID 392 to the unit, through an allocated buffer. -/
theorem getPID_pid392_passes_filter :
    (xTS_PacketHeader.Parse bufPid392).PID = 392 ∧
    (xTS_PacketHeader.Parse bufPid392).getPID = 136 ∧
    (mainStep xTS_AdaptationField.Reset fresh bufPid392).1 =
      some eResult.AssemblingContinue ∧
    (mainStep xTS_AdaptationField.Reset fresh bufPid392).2.2.nullDeref = true ∧
    (absorb fresh pktStart1000).self.m_BufferSize = 997 ∧
    (absorb fresh pktStart1000).self.m_DataOffset = 3 ∧
    (mainStep xTS_AdaptationField.Reset (absorb fresh pktStart1000).self bufPid392).1 =
      some eResult.AssemblingContinue ∧
    (mainStep xTS_AdaptationField.Reset (absorb fresh pktStart1000).self
      bufPid392).2.2.m_DataOffset = 3 + 184 ∧
    (mainStep xTS_AdaptationField.Reset (absorb fresh pktStart1000).self
      bufPid392).2.2.nullDeref = false := by
  decide

/-! ## Payload offset and length (C13) -/

/-- C13, as stated, fails: for an adaptation field of length 184 the offset is
`4 + 1 + 184 = 189`, and the length is `255`, not `188 - 189`; for length 251
the offset itself wraps to 0. -/
theorem payload_length_afl184 :
    (mkPacket (bufAfl 184)).header.hasAdaptationField = true ∧
    (mkPacket (bufAfl 184)).af.AFL = 184 ∧
    payloadOffset (mkPacket (bufAfl 184)).header (mkPacket (bufAfl 184)).af = 189 ∧
    payloadLength (mkPacket (bufAfl 184)).header (mkPacket (bufAfl 184)).af = 255 ∧
    ¬ (payloadOffset (mkPacket (bufAfl 184)).header (mkPacket (bufAfl 184)).af +
        payloadLength (mkPacket (bufAfl 184)).header (mkPacket (bufAfl 184)).af = 188) ∧
    (mkPacket (bufAfl 251)).af.AFL = 251 ∧
    payloadOffset (mkPacket (bufAfl 251)).header (mkPacket (bufAfl 251)).af = 0 := by
  decide

/-- C13, amended. For every header and every adaptation field of length at most
183, `AbsorbPacket` computes the payload offset as 4 when
`hasAdaptationField()` is false and as `4 + 1 + AFL` when it is true, and the
payload length as `188 - offset`, so that `offset + length = 188` and the
payload slice lies inside the 188-byte packet. -/
theorem payload_offset_length (h : xTS_PacketHeader) (af : xTS_AdaptationField)
    (hafl : af.AFL ≤ 183) :
    payloadOffset h af = (if h.hasAdaptationField = true then 4 + 1 + af.AFL else 4) ∧
    ((payloadLength h af : Nat) : Int) = 188 - (payloadOffset h af : Int) ∧
    payloadOffset h af + payloadLength h af = 188 ∧
    (∀ i, i < payloadLength h af → payloadOffset h af + i < 188) := by
  have ho : payloadOffset h af = (if h.hasAdaptationField = true then 4 + 1 + af.AFL else 4) := by
    unfold payloadOffset xTS_AdaptationField.getNumBytes xTS_AdaptationField.getBytes
    split <;> omega
  have hb : payloadOffset h af ≤ 188 := by
    rw [ho]
    split <;> omega
  have hl : payloadLength h af = 188 - payloadOffset h af := by
    unfold payloadLength
    omega
  refine ⟨ho, by omega, by omega, ?_⟩
  intro i hi
  omega

/-- C13, amended, at the packet with an adaptation field of length 183. -/
theorem payload_offset_length_witness :
    payloadOffset (mkPacket (bufAfl 183)).header (mkPacket (bufAfl 183)).af = 188 ∧
    payloadLength (mkPacket (bufAfl 183)).header (mkPacket (bufAfl 183)).af = 0 :=
  ⟨((payload_offset_length (mkPacket (bufAfl 183)).header (mkPacket (bufAfl 183)).af
      (by decide)).1).trans (by decide), by decide⟩
/-! ## The recorded PES header length (C14, C15) -/

/-- C14, the code at the failing input. The start packet `pktLongHeader` has
the ordinary stream-id `C0` and `H = 247` at offset 8; `Parse` records
`6 + 3 + 247 = 256` in 8 bits as 0, and the assembler skips no byte: all 12
bytes of the payload slice are copied. -/
theorem pes_header_length_247_recorded_as_0 :
    pesStreamId pktLongHeader ∉ xPES_PacketHeader.eStreamId ∧
    pesHeaderDataLength pktLongHeader = 247 ∧
    (fresh.m_PESH.Reset.Parse (payloadPtr pktLongHeader)).PES_header_data_length = 0 ∧
    (absorb fresh pktLongHeader).self.m_PESH.get_PES_header_data_length = 0 ∧
    (absorb fresh pktLongHeader).self.m_DataOffset = 12 ∧
    bytesAt (absorb fresh pktLongHeader).self.m_Buffer 12 = payloadSlice pktLongHeader := by
  decide

/-- C15, the code at the failing input. The start packet `pktPadding` has the
enumerated stream-id `BE`. Absorbed after a unit whose header length was
recorded as 9, 9 bytes are skipped and the target size is 3; absorbed after a
unit whose header length was recorded as 11, 11 bytes are skipped and the
target size is 1; in neither case does the payload begin after byte 5. -/
theorem padding_start_uses_recorded_header_length :
    pesStreamId pktPadding ∈ xPES_PacketHeader.eStreamId ∧
    pktPadding.header.getS = 1 ∧ (payloadSlice pktPadding).length = 12 ∧
    (absorb fresh pktStart9).self.m_PESH.get_PES_header_data_length = 9 ∧
    (absorb (absorb fresh pktStart9).self pktPadding).self.m_BufferSize = 3 ∧
    (absorb (absorb fresh pktStart9).self pktPadding).self.m_DataOffset = 12 - 9 ∧
    bytesAt (absorb (absorb fresh pktStart9).self pktPadding).self.m_Buffer 3 =
      [0xB4, 0xB5, 0xB6] ∧
    (absorb fresh pktStartH2).self.m_PESH.get_PES_header_data_length = 11 ∧
    (absorb (absorb fresh pktStartH2).self pktPadding).self.m_BufferSize = 1 ∧
    (absorb (absorb fresh pktStartH2).self pktPadding).self.m_DataOffset = 12 - 11 ∧
    bytesAt (absorb (absorb fresh pktStartH2).self pktPadding).self.m_Buffer 1 = [0xB6] := by
  decide

/-! ## A start packet with PES-packet-length 0 (C16) -/

/-- C16, as stated, fails: the start packet `pktLength0` has PES-packet-length
0, and `AbsorbPacket` returns `AssemblingStarted` and nothing else, derives the
target size `4294967293` from the zero length, and copies the 3 bytes after the
PES header. -/
theorem length0_starts_assembling :
    pktLength0.header.getS = 1 ∧ pesPacketLength pktLength0 = 0 ∧
    (absorb fresh pktLength0).res = eResult.AssemblingStarted ∧
    emitted (absorb fresh pktLength0) = [AssemblyEvent.Started] ∧
    (absorb fresh pktLength0).self.m_BufferSize = 4294967293 ∧
    (absorb fresh pktLength0).self.m_DataOffset = 3 ∧
    bytesAt (absorb fresh pktLength0).self.m_Buffer 3 = [0xA1, 0xA2, 0xA3] := by
  decide

theorem emitted_no_unbounded (r : Absorbed) :
    AssemblyEvent.UnboundedLengthUnsupported ∉ emitted r ∧
    AssemblyEvent.UnexpectedPayload ∉ emitted r := by
  unfold emitted
  cases r.ccNotValid <;> cases r.res <;> simp

/-- C16, amended. For every start packet whose PES-packet-length field is 0,
`AbsorbPacket` signals no unbounded-length condition: it returns
`AssemblingStarted` as for any other start packet and starts assembling. The
buffer is allocated, the write offset restarts at 0, and the part of the payload
slice after the recorded header length is copied to the start of the buffer,
through a pointer that is not `NULL`. -/
theorem length0_start (a : xPES_Assembler) (p : Packet)
    (hS : p.header.getS ≠ 0) (hL : pesPacketLength p = 0) :
    (absorb a p).res = eResult.AssemblingStarted ∧
    AssemblyEvent.UnboundedLengthUnsupported ∉ emitted (absorb a p) ∧
    (absorb a p).self.m_DataOffset =
      ((payloadSlice p).drop (absorb a p).self.m_PESH.get_PES_header_data_length).length ∧
    bytesAt (absorb a p).self.m_Buffer (absorb a p).self.m_DataOffset =
      (payloadSlice p).drop (absorb a p).self.m_PESH.get_PES_header_data_length ∧
    (absorb a p).self.m_BufferIsNull = false ∧
    (absorb a p).self.nullDeref = a.nullDeref := by
  have _ := hL
  have hres : (absorb a p).res = eResult.AssemblingStarted := by
    rw [absorb_res, if_pos hS]
  have hpesh := absorb_pesh a p
  rw [if_pos hS] at hpesh
  have hnull := absorb_allocated a p (Or.inl hS)
  refine ⟨hres, (emitted_no_unbounded _).1, ?_, ?_, hnull.1, hnull.2⟩
  · rw [hpesh, List.length_drop, payloadSlice_length, (absorb_start a p hS).1]
  · rw [hpesh, absorb_start_bytes a p hS]

/-- C16, amended, at `pktLength0`: the call returns `AssemblingStarted` and the
3 bytes after the PES header stand at the start of the buffer. -/
theorem length0_start_witness :
    (absorb fresh pktLength0).res = eResult.AssemblingStarted ∧
    bytesAt (absorb fresh pktLength0).self.m_Buffer 3 = [0xA1, 0xA2, 0xA3] ∧
    (absorb fresh pktLength0).self.nullDeref = false :=
  ⟨(length0_start fresh pktLength0 (by decide) (by decide)).1,
    (length0_start fresh pktLength0 (by decide) (by decide)).2.2.2.1,
    (length0_start fresh pktLength0 (by decide) (by decide)).2.2.2.2.2⟩

/-! ## A continuation packet with no unit in progress (C17) -/

/-- C17, as stated, fails. For a constructed and initialised assembler
`m_Buffer` is `NULL`, and a packet without payload-unit start that carries 3
payload bytes is not dropped: the copy loop stores through the `NULL` pointer.
For an assembler whose unit of 6 bytes has just finished, such a packet is taken
as a continuation: `AssemblingContinue` is returned, no unexpected payload is
reported, and the 3 bytes are stored at the write offset, which moves from 6 to
9 with the target size 6. -/
theorem idle_continuation_is_appended :
    fresh.m_DataOffset = fresh.m_BufferSize ∧ fresh.m_BufferIsNull = true ∧
    (pktCC 0).header.getS = 0 ∧ (payloadSlice (pktCC 0)).length = 3 ∧
    (absorb fresh (pktCC 0)).self.nullDeref = true ∧
    (results fresh [pktStart9, pktCont3]).getLast? = some eResult.AssemblingFinished ∧
    (absorbAll fresh [pktStart9, pktCont3]).m_DataOffset = 6 ∧
    (absorbAll fresh [pktStart9, pktCont3]).m_BufferSize = 6 ∧
    (absorbAll fresh [pktStart9, pktCont3]).nullDeref = false ∧
    (pktCC 2).header.getS = 0 ∧
    (absorb (absorbAll fresh [pktStart9, pktCont3]) (pktCC 2)).res =
      eResult.AssemblingContinue ∧
    emitted (absorb (absorbAll fresh [pktStart9, pktCont3]) (pktCC 2)) =
      [AssemblyEvent.Continue] ∧
    (absorb (absorbAll fresh [pktStart9, pktCont3]) (pktCC 2)).self.m_DataOffset = 9 ∧
    bytesAt (absorb (absorbAll fresh [pktStart9, pktCont3]) (pktCC 2)).self.m_Buffer 9 =
      [0xA1, 0xA2, 0xA3, 0xC1, 0xC2, 0xC3, 0xC1, 0xC2, 0xC3] := by
  decide

/-- C17, amended. For an assembler with no unit in progress (the write offset
equals the target size) whose buffer has been allocated by an earlier start
packet, and every packet with the payload-unit-start indicator clear,
`AbsorbPacket` reports no unexpected payload: it returns `AssemblingContinue`
when the payload slice is not empty and `AssemblingFinished` when it is empty,
the target size and the PES header are unchanged, and the call goes through no
`NULL` pointer. -/
theorem idle_continuation (a : xPES_Assembler) (p : Packet)
    (hbuf : a.m_BufferIsNull = false)
    (hidle : a.m_DataOffset = a.m_BufferSize) (hw : a.m_DataOffset < 2 ^ 32)
    (hS : p.header.getS = 0) :
    (absorb a p).res =
      (if payloadLength p.header p.af = 0 then eResult.AssemblingFinished
       else eResult.AssemblingContinue) ∧
    AssemblyEvent.UnexpectedPayload ∉ emitted (absorb a p) ∧
    (absorb a p).self.m_BufferSize = a.m_BufferSize ∧
    (absorb a p).self.m_PESH = a.m_PESH ∧
    (absorb a p).self.m_BufferIsNull = false ∧
    (absorb a p).self.nullDeref = a.nullDeref := by
  have hl := payloadLength_lt p.header p.af
  have hnull := absorb_allocated a p (Or.inr hbuf)
  refine ⟨?_, (emitted_no_unbounded _).2, ?_, ?_, hnull.1, hnull.2⟩
  · rw [absorb_res, if_neg (by simp [hS])]
    by_cases h0 : payloadLength p.header p.af = 0
    · rw [if_pos h0, h0, Nat.add_zero, Nat.mod_eq_of_lt hw, if_pos hidle]
    · rw [if_neg h0, if_neg]
      omega
  · rw [absorb_size, if_neg (by simp [hS])]
  · rw [absorb_pesh, if_neg (by simp [hS])]

/-- C17, amended, after the unit of `pktStart9` and `pktCont3` has finished: the
packet `pktCC 2`, with 3 payload bytes, gives `AssemblingContinue`, and the
packet `pktNoPayload`, with none, gives `AssemblingFinished`. -/
theorem idle_continuation_witness :
    (absorb (absorbAll fresh [pktStart9, pktCont3]) (pktCC 2)).res =
      eResult.AssemblingContinue ∧
    (absorb (absorbAll fresh [pktStart9, pktCont3]) pktNoPayload).res =
      eResult.AssemblingFinished ∧
    (absorb (absorbAll fresh [pktStart9, pktCont3]) pktNoPayload).self.nullDeref = false :=
  ⟨(idle_continuation (absorbAll fresh [pktStart9, pktCont3]) (pktCC 2)
      (by decide) (by decide) (by decide) (by decide)).1,
    (idle_continuation (absorbAll fresh [pktStart9, pktCont3]) pktNoPayload
      (by decide) (by decide) (by decide) (by decide)).1,
    (idle_continuation (absorbAll fresh [pktStart9, pktCont3]) pktNoPayload
      (by decide) (by decide) (by decide) (by decide)).2.2.2.2.2⟩

/-! ## Independence of the continuity counter (C18) -/

/-- C18. Two assembler states that differ only in the last-seen continuity
counter give, for any packet, the same result and the same assembler after the
call: buffer contents, write offset, target size, PES header and file. -/
theorem continuity_counter_does_not_alter_assembly (a : xPES_Assembler) (c : Int)
    (p : Packet) :
    (absorb { a with m_LastContinuityCounter := c } p).res = (absorb a p).res ∧
    (absorb { a with m_LastContinuityCounter := c } p).self.m_Buffer =
      (absorb a p).self.m_Buffer ∧
    (absorb { a with m_LastContinuityCounter := c } p).self.m_DataOffset =
      (absorb a p).self.m_DataOffset ∧
    (absorb { a with m_LastContinuityCounter := c } p).self.m_BufferSize =
      (absorb a p).self.m_BufferSize ∧
    (absorb { a with m_LastContinuityCounter := c } p).self = (absorb a p).self := by
  have hself : (absorb { a with m_LastContinuityCounter := c } p).self = (absorb a p).self := by
    rw [absorb_self, absorb_self]
    rfl
  refine ⟨?_, by rw [hself], by rw [hself], by rw [hself], hself⟩
  rw [absorb_res, absorb_res]

/-! ## The flags of the adaptation field (C19) -/

theorem bit_of_byte (flags k : Nat) :
    ((flags &&& (1 <<< k)) >>> k) = (flags >>> k) &&& 1 := by
  have h := and_mask_shr flags k 1
  have m1 : (flags >>> k) &&& 1 = (flags >>> k) % 2 := Nat.and_pow_two_sub_one_eq_mod _ 1
  rw [m1, Nat.shiftRight_eq_div_pow flags k]
  exact h

/-- C19. For every packet whose adaptation-field-length byte is greater than 0,
`xTS_AdaptationField::Parse` sets the length to the byte at offset 4 and the
eight flags to the bits of the byte at offset 5, most significant first:
discontinuity, random-access, elementary-stream-priority, PCR, OPCR,
splicing-point, transport-private-data, adaptation-field-extension, each 0 or
1. -/
theorem parse_adaptation_field_flags (self : xTS_AdaptationField) (Input : BytePtr)
    (Control : Nat) (hlen : 0 < rd Input 4) :
    (self.Parse Input Control).AFL = rd Input 4 ∧
    (self.Parse Input Control).DC = (rd Input 5 >>> 7) &&& 1 ∧
    (self.Parse Input Control).RA = (rd Input 5 >>> 6) &&& 1 ∧
    (self.Parse Input Control).SP = (rd Input 5 >>> 5) &&& 1 ∧
    (self.Parse Input Control).PCR = (rd Input 5 >>> 4) &&& 1 ∧
    (self.Parse Input Control).OPCR = (rd Input 5 >>> 3) &&& 1 ∧
    (self.Parse Input Control).SP2 = (rd Input 5 >>> 2) &&& 1 ∧
    (self.Parse Input Control).TP = (rd Input 5 >>> 1) &&& 1 ∧
    (self.Parse Input Control).EX = (rd Input 5 >>> 0) &&& 1 ∧
    (self.Parse Input Control).DC ≤ 1 ∧ (self.Parse Input Control).RA ≤ 1 ∧
    (self.Parse Input Control).SP ≤ 1 ∧ (self.Parse Input Control).PCR ≤ 1 ∧
    (self.Parse Input Control).OPCR ≤ 1 ∧ (self.Parse Input Control).SP2 ≤ 1 ∧
    (self.Parse Input Control).TP ≤ 1 ∧ (self.Parse Input Control).EX ≤ 1 := by
  have _ := hlen
  have m1 : ∀ x : Nat, x &&& 1 = x % 2 := fun x => Nat.and_pow_two_sub_one_eq_mod x 1
  have b7 : (rd Input 5 &&& 0x80) >>> 7 = (rd Input 5 >>> 7) &&& 1 := bit_of_byte _ 7
  have b6 : (rd Input 5 &&& 0x40) >>> 6 = (rd Input 5 >>> 6) &&& 1 := bit_of_byte _ 6
  have b5 : (rd Input 5 &&& 0x20) >>> 5 = (rd Input 5 >>> 5) &&& 1 := bit_of_byte _ 5
  have b4 : (rd Input 5 &&& 0x10) >>> 4 = (rd Input 5 >>> 4) &&& 1 := bit_of_byte _ 4
  have b3 : (rd Input 5 &&& 0x8) >>> 3 = (rd Input 5 >>> 3) &&& 1 := bit_of_byte _ 3
  have b2 : (rd Input 5 &&& 0x4) >>> 2 = (rd Input 5 >>> 2) &&& 1 := bit_of_byte _ 2
  have b1 : (rd Input 5 &&& 0x2) >>> 1 = (rd Input 5 >>> 1) &&& 1 := bit_of_byte _ 1
  have b0 : (rd Input 5 &&& 0x1) >>> 0 = (rd Input 5 >>> 0) &&& 1 := bit_of_byte _ 0
  simp only [xTS_AdaptationField.Parse, Nat.add_zero]
  rw [b7, b6, b5, b4, b3, b2, b1, b0]
  simp only [m1]
  refine ⟨trivial, ?_⟩
  omega

/-- C19 at the packet whose adaptation field has length 1 and flags byte `A5`. -/
theorem parse_adaptation_field_flags_witness :
    (xTS_AdaptationField.Reset.Parse (bufFlags 0xA5) 3).AFL = rd (bufFlags 0xA5) 4 ∧
    xTS_AdaptationField.Reset.Parse (bufFlags 0xA5) 3 =
      { AFL := 1, DC := 1, RA := 0, SP := 1, PCR := 0, OPCR := 0, SP2 := 1, TP := 0, EX := 1 } :=
  ⟨(parse_adaptation_field_flags xTS_AdaptationField.Reset (bufFlags 0xA5) 3 (by decide)).1,
    by decide⟩

/-! ## The result of a call (C20) -/

end TSParser
